import Mathlib

/-!
# castget: verification development

Shallow embedding of `src/utils.c` (`libcastget_parse_rfc822_date`,
`write_by_temporary_file`) and of the tag and channel code of `src/castget.c`
(`_id3_find_and_set_frame`, `_id3_set`, `_id3_check_and_set`,
`_process_channel`), followed by the theorems about them.

C strings are lists of characters; library calls whose code is outside the
repository (libc, GLib, id3lib) are modelled from their documented behaviour
and named after the call they stand for.
-/

set_option autoImplicit false

namespace Castget

/-! ## Part 1. `libcastget_parse_rfc822_date` (utils.c, lines 124-170) -/

/-- The characters of a C string: everything before the first NUL. -/
def c_str (s : List Char) : List Char :=
  s.takeWhile (fun c => c.toNat != 0)

/-- The `isspace` of `<ctype.h>` in the C locale: space, and `\t \n \v \f \r`. -/
def isspace (c : Char) : Bool :=
  c.toNat == 32 || (9 ≤ c.toNat && c.toNat ≤ 13)

/-- The decimal digits `0` to `9`. -/
def isdigit (c : Char) : Bool :=
  48 ≤ c.toNat && c.toNat ≤ 57

/-- The loop `while (isspace(*dstr)) dstr++;`. -/
def skip_space (s : List Char) : List Char :=
  s.dropWhile isspace

/-- The test `strncmp(a, b, n) == 0` on NUL-free character lists. -/
def strncmp_eq (a b : List Char) (n : Nat) : Bool :=
  a.take n == b.take n

/-- The table `dayStr[7]`. -/
def dayStr : List (List Char) :=
  ["Sun".toList, "Mon".toList, "Tue".toList, "Wed".toList, "Thu".toList, "Fri".toList,
   "Sat".toList]

/-- The table `monthStr[12]`. -/
def monthStr : List (List Char) :=
  ["Jan".toList, "Feb".toList, "Mar".toList, "Apr".toList, "May".toList, "Jun".toList,
   "Jul".toList, "Aug".toList, "Sep".toList, "Oct".toList, "Nov".toList, "Dec".toList]

/-- The search loops `for (i = 0; i < N; i++) if (strncmp(s, tbl[i], 3) == 0) break;`:
the first index whose entry matches, or the table length. -/
def table_index (tbl : List (List Char)) (s : List Char) : Nat :=
  tbl.findIdx (fun e => strncmp_eq s e 3)

/-- The value of a run of decimal digits. -/
def digits_value (ds : List Char) : Nat :=
  ds.foldl (fun acc c => acc * 10 + (c.toNat - 48)) 0

/-- What glibc stores for `%d`: the `strtol` result, saturated to a 64-bit `long`,
converted to a 32-bit `int`. -/
def to_c_int (v : Int) : Int :=
  let l : Int := max (-(2 ^ 63)) (min v (2 ^ 63 - 1))
  (l + 2 ^ 31) % 2 ^ 32 - 2 ^ 31

/-- One `%d` conversion: skip white space, read an optional sign and a non-empty
run of digits. Gives the value and the rest of the input, or `none` when no
integer is there. -/
def scan_int (s : List Char) : Option (Int × List Char) :=
  let s1 := skip_space s
  let neg : Bool := s1.head? == some (Char.ofNat 45)
  let s2 := if s1.head? == some (Char.ofNat 45) || s1.head? == some (Char.ofNat 43)
            then s1.tail else s1
  let ds := s2.takeWhile isdigit
  if ds.isEmpty then none
  else
    let v : Int := digits_value ds
    some (to_c_int (if neg then -v else v), s2.dropWhile isdigit)

/-- One `%s` conversion: skip white space, read the non-empty run of
non-white-space characters. -/
def scan_token (s : List Char) : Option (List Char × List Char) :=
  let s1 := skip_space s
  let tok := s1.takeWhile (fun c => !isspace c)
  if tok.isEmpty then none else some (tok, s1.dropWhile (fun c => !isspace c))

/-- Size of the buffer `char mStr[20]`. -/
def mStr_size : Nat := 20

/-- The call `strlen`: the number of bytes of a C string, its characters being stored
in UTF-8. -/
def strlen (s : List Char) : Nat :=
  (s.map Char.utf8Size).sum

/-- Result of `sscanf(dstr, "%d %s %d", &day, mStr, &year)`. -/
inductive Sscanf where
  /-- Fewer than three conversions: the return value (`-1` is `EOF`). -/
  | fewer (count : Int)
  /-- Return value 3, with the three stored values. -/
  | three (day : Int) (mStr : List Char) (year : Int)
  /-- The `%s` token with its terminating NUL does not fit `mStr`: the call writes
  past the end of the buffer (undefined behaviour). -/
  | overrun
deriving DecidableEq, Repr

/-- The call `sscanf(dstr, "%d %s %d", &day, mStr, &year)` with `char mStr[20]`. The
`%s` has no field width, so a token of 20 or more bytes is stored past the end
of `mStr`, whether or not the year that follows converts. -/
def sscanf_d_s_d (dstr : List Char) : Sscanf :=
  match scan_int dstr with
  | none => if (skip_space dstr).isEmpty then .fewer (-1) else .fewer 0
  | some (day, r1) =>
    match scan_token r1 with
    | none => .fewer 1
    | some (tok, r2) =>
      if mStr_size ≤ strlen tok then .overrun
      else
        match scan_int r2 with
        | none => .fewer 2
        | some (year, _) => .three day tok year

/-- GLib date in its day-month-year representation; `dmy = false` is the invalid
date that `g_date_new` creates. -/
structure GDate where
  dmy : Bool
  day : Nat
  month : Nat
  year : Nat
deriving DecidableEq, Repr

/-- The call `g_date_new()`: an invalid date. -/
def g_date_new : GDate := ⟨false, 0, 0, 0⟩

/-- The call `g_date_valid`. -/
def g_date_valid (d : GDate) : Bool := d.dmy

/-- The call `g_date_is_leap_year`. -/
def g_date_is_leap_year (y : Nat) : Bool :=
  (y % 4 == 0 && y % 100 != 0) || y % 400 == 0

/-- GLib table `days_in_months`, for months 1 to 12. -/
def days_in_months (leap : Bool) (m : Nat) : Nat :=
  match m with
  | 1 => 31 | 2 => if leap then 29 else 28 | 3 => 31 | 4 => 30 | 5 => 31 | 6 => 30
  | 7 => 31 | 8 => 31 | 9 => 30 | 10 => 31 | 11 => 30 | 12 => 31
  | _ => 0

/-- The call `g_date_valid_dmy`. -/
def g_date_valid_dmy (d m y : Nat) : Bool :=
  0 < m && m < 13 && 0 < d && 0 < y && d ≤ days_in_months (g_date_is_leap_year y) m

/-- The call `g_date_set_dmy (date, day, month, year)`: the `int` arguments are
converted to `GDateDay` (8 bits) and `GDateYear` (16 bits); the date is set when
the triple is a real date and left as it was otherwise. -/
def g_date_set_dmy (date : GDate) (day : Int) (month : Nat) (year : Int) : GDate :=
  let d := (day % 256).toNat
  let y := (year % 65536).toNat
  if g_date_valid_dmy d month y then ⟨true, d, month, y⟩ else date

/-- The block of lines 136-148: skip a leading weekday abbreviation, a comma and white
space. `none` stands for the two `return rfc822_date;` inside it. -/
def skip_day_field (dstr : List Char) : Option (List Char) :=
  if table_index dayStr dstr < dayStr.length then
    let d1 := skip_space (dstr.drop 3)
    if d1.isEmpty then none
    else
      let d2 := if d1.head? == some (Char.ofNat 44) then d1.tail else d1
      let d3 := skip_space d2
      if d3.isEmpty then none else some d3
  else some dstr

/-- Lines 162-167: the year adjustment. -/
def adjust_year (year : Int) : Int :=
  if year < 1900 then (if year < 50 then year + 2000 else year + 1900) else year

/-- What a call of `libcastget_parse_rfc822_date` does. -/
inductive ParseOutcome where
  /-- The call returns this date. -/
  | returned (date : GDate)
  /-- The call writes past the end of `mStr` (undefined behaviour). -/
  | overrun
deriving DecidableEq, Repr

/-- The function `libcastget_parse_rfc822_date` of utils.c. -/
def libcastget_parse_rfc822_date (rfc822_date_str : List Char) : ParseOutcome :=
  let rfc822_date := g_date_new
  let dstr := skip_space (c_str rfc822_date_str)
  if dstr.isEmpty then .returned rfc822_date
  else
    match skip_day_field dstr with
    | none => .returned rfc822_date
    | some dstr =>
      match sscanf_d_s_d dstr with
      | .overrun => .overrun
      | .fewer _ => .returned rfc822_date
      | .three day mStr year =>
        let i := table_index monthStr mStr
        if i = monthStr.length then .returned rfc822_date
        else .returned (g_date_set_dmy rfc822_date day (i + 1) (adjust_year year))

/-! ## Part 2. `write_by_temporary_file` (utils.c, lines 36-107) -/

/-- The contents of a file. -/
abbrev Bytes := List UInt8

/-- The `errno` value `ENOSPC`. -/
def ENOSPC : Nat := 28

/-- The `errno` value `EEXIST`. -/
def EEXIST : Nat := 17

/-- The state the function works on: the file system, as a map from path to contents,
and the global `errno`. -/
structure Sys where
  files : String → Option Bytes
  errno : Nat

/-- The file at `path` now holds `content`. -/
def Sys.store (s : Sys) (path : String) (content : Bytes) : Sys :=
  { s with files := fun q => if q = path then some content else s.files q }

/-- The call `unlink(path)`. -/
def unlink (s : Sys) (path : String) : Sys :=
  { s with files := fun q => if q = path then none else s.files q }

/-- A successful `g_rename(oldname, newname)`: the contents move to `newname`, replacing
what was there. -/
def g_rename (s : Sys) (oldname newname : String) : Sys :=
  { s with files := fun q =>
      if q = newname then s.files oldname else if q = oldname then none else s.files q }

/-- One run of the `writer` callback on the fresh stream: the bytes it wrote to the
temporary file, the `int` it returns, and the `errno` left by a call that failed inside
it (`none` when it leaves `errno` alone). -/
structure Writer where
  written : Bytes
  retval : Int
  errno : Option Nat

/-- What the system calls of one invocation do. `mkstemp_names` are the replacements of
`XXXXXX` that `g_mkstemp` tries, in order; `open_tmp_name` is the file `g_file_open_tmp`
creates (`none`: it fails); `fdopen_errno`, `rename_errno` are the errors of `fdopen` and
`g_rename` (`none`: success); `close_enospc` says that flushing the stream in `fclose`
hits a full device. -/
structure Env where
  mkstemp_names : List String
  open_tmp_name : Option String
  fdopen_errno : Option Nat
  close_enospc : Bool
  rename_errno : Option Nat

/-- The name `g_mkstemp` gives the template `filename.XXXXXX` for a replacement `x`. -/
def tmp_name (filename x : String) : String :=
  filename ++ "." ++ x

/-- Lines 45-64: create the temporary file. `g_mkstemp` takes the first tried name that
does not exist yet and creates it empty; without one it fails. The result is the
temporary name and the new state, or the state after the failure. -/
def open_temporary (s : Sys) (env : Env) (filename : Option String) : Except Sys (String × Sys) :=
  match filename with
  | some fn =>
    match env.mkstemp_names.find? (fun x => (s.files (tmp_name fn x)).isNone) with
    | some x => .ok (tmp_name fn x, s.store (tmp_name fn x) [])
    | none => .error { s with errno := EEXIST }
  | none =>
    match env.open_tmp_name with
    | some t => if (s.files t).isNone then .ok (t, s.store t []) else .error { s with errno := EEXIST }
    | none => .error { s with errno := EEXIST }

/-- What a call of `write_by_temporary_file` leaves: the return value, the string stored
through `used_filename` (`none`: nothing was stored), the state, and the lines written to
`stderr`. -/
structure WriteResult where
  retval : Int
  used_filename : Option String
  sys : Sys
  stderr : List String

/-- The message of line 81. -/
def msg_no_space : String := "No space left on device."

/-- The state at line 80, after `writer(f, user_data)` and `fclose(f)`: the temporary
file holds the bytes written, and `errno` is what the last failing call left. -/
def after_close (s1 : Sys) (env : Env) (tmp : String) (writer : Writer) : Sys :=
  let s2 : Sys := { (s1.store tmp writer.written) with errno := writer.errno.getD s1.errno }
  if env.close_enospc then { s2 with errno := ENOSPC } else s2

/-- The function `write_by_temporary_file` of utils.c. -/
def write_by_temporary_file (s : Sys) (env : Env) (filename : Option String)
    (writer : Writer) : WriteResult :=
  match open_temporary s env filename with
  | .error s1 => ⟨-1, none, s1, ["Error opening temporary file"]⟩
  | .ok (tmp_filename_used, s1) =>
    match env.fdopen_errno with
    | some e => ⟨-1, none, { s1 with errno := e }, ["Error opening temporary file stream"]⟩
    | none =>
      let s3 := after_close s1 env tmp_filename_used writer
      if s3.errno = ENOSPC then
        ⟨-1, none, unlink s3 tmp_filename_used, [msg_no_space]⟩
      else
        match (if writer.retval = 0 then filename else none) with
        | some fn =>
          match env.rename_errno with
          | some e =>
            ⟨-1, none, unlink { s3 with errno := e } tmp_filename_used,
              ["Error renaming temporary file"]⟩
          | none => ⟨writer.retval, some fn, g_rename s3 tmp_filename_used fn, []⟩
        | none => ⟨writer.retval, some tmp_filename_used, s3, []⟩

/-! ## Part 3. Tag reconciliation (castget.c, lines 522-633) -/

/-- The fields of `struct channel_configuration` that castget.c reads; a NULL pointer is
`none`. -/
structure channel_configuration where
  identifier : String
  url : Option String
  spool_directory : Option String
  user_filename_spec : Option String
  playlist : Option String
  regex_filter : Option String
  id3_lead_artist : Option String
  id3_content_group : Option String
  id3_title : Option String
  id3_album : Option String
  id3_content_type : Option String
  id3_year : Option String
  id3_comment : Option String
deriving DecidableEq, Repr

/-- The frame identifiers of id3lib that castget.c names, and all the others. -/
inductive ID3_FrameID where
  | ID3FID_LEADARTIST
  | ID3FID_CONTENTGROUP
  | ID3FID_TITLE
  | ID3FID_ALBUM
  | ID3FID_CONTENTTYPE
  | ID3FID_YEAR
  | ID3FID_COMMENT
  | other (n : Nat)
deriving DecidableEq, Repr

/-- A frame: its identifier and the value of its `ID3FN_TEXT` field, `none` while no
value has been set. -/
structure ID3Frame where
  id : ID3_FrameID
  text : Option String
deriving DecidableEq, Repr

/-- A tag: its frames, in order of attachment. -/
abbrev ID3Tag := List ID3Frame

/-- The media file as the tag library sees it: the tag stored in it and the number of
times `ID3Tag_Update` has written it. -/
structure TagFile where
  tag : ID3Tag
  updates : Nat
deriving DecidableEq, Repr

/-- What id3lib does in one call of `_id3_set`: whether `ID3Tag_New` returns a tag, and
for which frame identifiers `ID3Frame_GetField(frame, ID3FN_TEXT)` returns a field. -/
structure Id3Env where
  tag_new_ok : Bool
  has_text : ID3_FrameID → Bool

/-- The test `strlen(value) > 0` reads the C string in `value`. -/
def c_strlen (value : String) : Nat :=
  strlen (c_str value.toList)

/-- The C string in `value`, as `ID3Field_SetASCII` stores it. -/
def c_string (value : String) : String :=
  String.mk (c_str value.toList)

/-- The call `ID3Tag_FindFrameWithID(tag, id)`: the first frame with that identifier. -/
def ID3Tag_FindFrameWithID (tag : ID3Tag) (id : ID3_FrameID) : Option ID3Frame :=
  tag.find? (fun f => f.id == id)

/-- The call `ID3Tag_RemoveFrame(tag, frame)`. -/
def ID3Tag_RemoveFrame (tag : ID3Tag) (frame : ID3Frame) : ID3Tag :=
  tag.erase frame

/-- The loop of lines 529-530, `while ((frame = ID3Tag_FindFrameWithID(tag, id)))
ID3Tag_RemoveFrame(tag, frame);`, run for at most `fuel` rounds. -/
def remove_frames_loop : Nat → ID3Tag → ID3_FrameID → ID3Tag
  | 0, tag, _ => tag
  | fuel + 1, tag, id =>
    match ID3Tag_FindFrameWithID tag id with
    | some frame => remove_frames_loop fuel (ID3Tag_RemoveFrame tag frame) id
    | none => tag

/-- The loop of lines 529-530 with one round for every frame of the tag, which is as
many as it can take. -/
def remove_frames (tag : ID3Tag) (id : ID3_FrameID) : ID3Tag :=
  remove_frames_loop tag.length tag id

/-- The function `_id3_find_and_set_frame`: the tag it leaves and the `int` it returns. -/
def _id3_find_and_set_frame (env : Id3Env) (tag : ID3Tag) (id : ID3_FrameID)
    (value : Option String) : ID3Tag × Int :=
  let tag := remove_frames tag id
  match value with
  | some v =>
    if 0 < c_strlen v then
      if env.has_text id then (tag ++ [⟨id, some (c_string v)⟩], 0)
      else (tag ++ [⟨id, none⟩], 1)
    else (tag, 0)
  | none => (tag, 0)

/-- One block `if (x) { errors += _id3_find_and_set_frame(tag, ID, x); ... }` of
`_id3_set`, on the pair of the tag and `errors`. -/
def set_if_given (env : Id3Env) (st : ID3Tag × Int) (id : ID3_FrameID)
    (value : Option String) : ID3Tag × Int :=
  match value with
  | some v =>
    ((_id3_find_and_set_frame env st.1 id (some v)).1,
      st.2 + (_id3_find_and_set_frame env st.1 id (some v)).2)
  | none => st

/-- What a call of `_id3_set` leaves: the `int` returned, the file, and the tag object as
it was when `ID3Tag_Delete` freed it (`none`: there was no tag object). -/
structure Id3Result where
  errors : Int
  file : TagFile
  tag : Option ID3Tag
deriving DecidableEq, Repr

/-- The function `_id3_set`. `ID3Tag_Link` reads the tag of the file into the tag object
and `ID3Tag_Update` writes the tag object to the file. Lines printed when `verbose` is
set are left out. -/
def _id3_set (env : Id3Env) (file : TagFile) (clear : Bool)
    (lead_artist content_group title album content_type year comment : Option String) :
    Id3Result :=
  if !env.tag_new_ok then ⟨1, file, none⟩
  else
    let tag : ID3Tag := file.tag
    let tag : ID3Tag := if clear then [] else tag
    let st : ID3Tag × Int := (tag, 0)
    let st := set_if_given env st .ID3FID_LEADARTIST lead_artist
    let st := set_if_given env st .ID3FID_CONTENTGROUP content_group
    let st := set_if_given env st .ID3FID_TITLE title
    let st := set_if_given env st .ID3FID_ALBUM album
    let st := set_if_given env st .ID3FID_CONTENTTYPE content_type
    let st := set_if_given env st .ID3FID_YEAR year
    let st := set_if_given env st .ID3FID_COMMENT comment
    if st.2 = 0 then ⟨st.2, ⟨st.1, file.updates + 1⟩, some st.1⟩
    else ⟨st.2, file, some st.1⟩

/-- The function `_id3_check_and_set`. -/
def _id3_check_and_set (env : Id3Env) (file : TagFile) (cfg : channel_configuration) :
    Id3Result :=
  if cfg.id3_lead_artist.isSome || cfg.id3_content_group.isSome || cfg.id3_title.isSome ||
      cfg.id3_album.isSome || cfg.id3_content_type.isSome || cfg.id3_year.isSome ||
      cfg.id3_comment.isSome then
    _id3_set env file false cfg.id3_lead_artist cfg.id3_content_group cfg.id3_title
      cfg.id3_album cfg.id3_content_type cfg.id3_year cfg.id3_comment
  else ⟨0, file, none⟩

/-- The seven override arguments of `_id3_set` with their frame identifiers, in the order
in which `_id3_set` handles them. -/
def override_fields
    (lead_artist content_group title album content_type year comment : Option String) :
    List (ID3_FrameID × Option String) :=
  [(.ID3FID_LEADARTIST, lead_artist), (.ID3FID_CONTENTGROUP, content_group),
   (.ID3FID_TITLE, title), (.ID3FID_ALBUM, album), (.ID3FID_CONTENTTYPE, content_type),
   (.ID3FID_YEAR, year), (.ID3FID_COMMENT, comment)]

/-- The seven override fields of a configuration, as `_id3_check_and_set` passes them. -/
def id3_overrides (cfg : channel_configuration) : List (ID3_FrameID × Option String) :=
  override_fields cfg.id3_lead_artist cfg.id3_content_group cfg.id3_title cfg.id3_album
    cfg.id3_content_type cfg.id3_year cfg.id3_comment

/-- An override field whose frame could not be given its value: the field is set and not
empty, and the new frame has no text field. -/
def field_fails (env : Id3Env) (p : ID3_FrameID × Option String) : Bool :=
  match p.2 with
  | some v => decide (0 < c_strlen v) && !env.has_text p.1
  | none => false

/-- The number of override fields whose frame could not be given its value. -/
def failed_fields (env : Id3Env) (l : List (ID3_FrameID × Option String)) : Nat :=
  (l.filter (field_fails env)).length

/-- The frames of one kind in a tag. -/
def frames_of (id : ID3_FrameID) (tag : ID3Tag) : List ID3Frame :=
  tag.filter (fun f => f.id == id)

/-- The frame that one override field attaches: none for an unset or empty field,
otherwise one frame of its kind, carrying the value when the frame has a text field. -/
def new_frames (env : Id3Env) (p : ID3_FrameID × Option String) : List ID3Frame :=
  match p.2 with
  | some v =>
    if 0 < c_strlen v then [⟨p.1, if env.has_text p.1 then some (c_string v) else none⟩]
    else []
  | none => []

/-- The frames that a list of override fields attaches, in order. -/
def all_new_frames (env : Id3Env) : List (ID3_FrameID × Option String) → List ID3Frame
  | [] => []
  | p :: l => new_frames env p ++ all_new_frames env l

/-- The kinds of the override fields that are set. -/
def set_kinds : List (ID3_FrameID × Option String) → List ID3_FrameID
  | [] => []
  | (k, some _) :: l => k :: set_kinds l
  | (_, none) :: l => set_kinds l

/-! ## Part 4. `_process_channel` and the channel loop of `main` (castget.c) -/

/-- The values of `enum op`. -/
inductive op where
  | OP_UPDATE
  | OP_CATCHUP
  | OP_LIST
deriving DecidableEq, Repr

/-- The three callbacks handed to `channel_update`. -/
inductive channel_callback where
  | update_callback
  | catchup_callback
  | list_callback
deriving DecidableEq, Repr

/-- An enclosure filter as `enclosure_filter_new(pattern, caseless)` makes it. -/
structure enclosure_filter where
  pattern : String
  caseless : Bool
deriving DecidableEq, Repr

/-- The object `channel_new` returns, known by the arguments it was made from. -/
structure channel where
  url : String
  channel_file : String
  spool_directory : String
  filename_spec : Option String
  resume : Int
deriving DecidableEq, Repr

/-- The static flags of castget.c that `_process_channel` reads. -/
structure Flags where
  new : Int
  first_only : Int
  resume : Int
deriving DecidableEq, Repr

/-- The calls into the configuration, channel and filter modules, whose code is in other
files: the groups of the key file, the result of `channel_configuration_verify_keys`,
the configuration `channel_configuration_new(kf, identifier, defaults)` builds, the
result of `access(path, F_OK)`, whether `channel_new` returns a channel, and what
`enclosure_filter_new` returns. -/
structure ProcEnv where
  groups : List String
  verify_keys : String → Int
  configuration_new : String → Option channel_configuration → channel_configuration
  access : String → Int
  channel_new_ok : channel → Bool
  enclosure_filter_new : String → Bool → Option enclosure_filter

/-- What `_process_channel` does that can be seen from outside, in order. -/
inductive Event where
  | stderr (msg : String)
  | channel_new (url channel_file spool_directory : String) (filename_spec : Option String)
      (resume : Int)
  | enclosure_filter_new (pattern : String) (caseless : Bool)
  | channel_update (c : channel) (cfg : channel_configuration) (cb : channel_callback)
      (no_download no_mark_read first_only resume : Int) (filter : Option enclosure_filter)
  | enclosure_filter_free (filter : enclosure_filter)
  | channel_free (c : channel)
  | channel_configuration_free (cfg : channel_configuration)
deriving DecidableEq, Repr

/-- The call `g_key_file_has_group(kf, identifier)`. -/
def g_key_file_has_group (env : ProcEnv) (identifier : String) : Bool :=
  env.groups.contains identifier

/-- Lines 440-441: the channel file `identifier.xml` in the channel directory. -/
def channel_file_name (channel_directory identifier : String) : String :=
  channel_directory ++ "/" ++ identifier ++ ".xml"

/-- Lines 473-488: the call of `channel_update` for the operation. -/
def update_call (flags : Flags) (o : op) (c : channel) (cfg : channel_configuration)
    (filter : Option enclosure_filter) : Event :=
  match o with
  | .OP_UPDATE => .channel_update c cfg .update_callback 0 0 flags.first_only flags.resume filter
  | .OP_CATCHUP => .channel_update c cfg .catchup_callback 1 0 flags.first_only 0 filter
  | .OP_LIST => .channel_update c cfg .list_callback 1 1 flags.first_only 0 filter

/-- The function `_process_channel`: its return value and what it did. -/
def _process_channel (env : ProcEnv) (flags : Flags) (channel_directory : String)
    (identifier : String) (o : op) (defaults : Option channel_configuration)
    (filter : Option enclosure_filter) : Int × List Event :=
  if !g_key_file_has_group env identifier then
    (-1, [.stderr ("Unknown channel identifier " ++ identifier ++ ".")])
  else if env.verify_keys identifier < 0 then (-1, [])
  else
    let channel_configuration := env.configuration_new identifier defaults
    match channel_configuration.url with
    | none =>
      (-1, [.stderr ("No feed URL set for channel " ++ identifier ++ "."),
            .channel_configuration_free channel_configuration])
    | some url =>
      match channel_configuration.spool_directory with
      | none =>
        (-1, [.stderr ("No spool directory set for channel " ++ identifier ++ "."),
              .channel_configuration_free channel_configuration])
      | some spool_directory =>
        let channel_file := channel_file_name channel_directory identifier
        if flags.new ≠ 0 ∧ env.access channel_file = 0 then
          (0, [.channel_configuration_free channel_configuration])
        else
          let c : channel := ⟨url, channel_file, spool_directory,
            channel_configuration.user_filename_spec, flags.resume⟩
          let ev_new : Event := .channel_new url channel_file spool_directory
            channel_configuration.user_filename_spec flags.resume
          if !env.channel_new_ok c then
            (-1, [ev_new,
                  .stderr ("Error parsing channel file for channel " ++ identifier ++ "."),
                  .channel_configuration_free channel_configuration])
          else
            match filter, channel_configuration.regex_filter with
            | none, some regex_filter =>
              let per_channel_filter := env.enclosure_filter_new regex_filter false
              (0, [ev_new, .enclosure_filter_new regex_filter false,
                   update_call flags o c channel_configuration per_channel_filter] ++
                  (match per_channel_filter with
                   | some pf => [.enclosure_filter_free pf]
                   | none => []) ++
                  [.channel_free c, .channel_configuration_free channel_configuration])
            | _, _ =>
              (0, [ev_new, update_call flags o c channel_configuration filter,
                   .channel_free c, .channel_configuration_free channel_configuration])

/-- The defaults that `main` reads at lines 188-195. -/
def main_defaults (env : ProcEnv) : Option channel_configuration :=
  if g_key_file_has_group env "*" then some (env.configuration_new "*" none) else none

/-- Lines 186-211 of `main`, with the key file open: read the defaults, then call
`_process_channel` for the identifiers of the command line, or, without any, for every
group other than `*`. The result is `main`'s early return value, if any, and the result
of each call of `_process_channel`, in order. -/
def main_channels (env : ProcEnv) (flags : Flags) (channeldir : String) (o : op)
    (filter : Option enclosure_filter) (identifiers : List String) :
    Option Int × List (String × (Int × List Event)) :=
  if g_key_file_has_group env "*" && decide (env.verify_keys "*" < 0) then (some (-1), [])
  else
    let defaults : Option channel_configuration := main_defaults env
    if !identifiers.isEmpty then
      (none, identifiers.map
        (fun id => (id, _process_channel env flags channeldir id o defaults filter)))
    else
      (none, (env.groups.filter (fun g => g != "*")).map
        (fun id => (id, _process_channel env flags channeldir id o defaults filter)))

/-- The filters handed to the feed engine: the filter argument of every `channel_update`
call among the events. -/
def filters_handed : List Event → List (Option enclosure_filter)
  | [] => []
  | .channel_update _ _ _ _ _ _ _ filter :: l => filter :: filters_handed l
  | _ :: l => filters_handed l

/-- The patterns compiled: the pattern of every `enclosure_filter_new` call among the
events. -/
def patterns_compiled : List Event → List String
  | [] => []
  | .enclosure_filter_new pattern _ :: l => pattern :: patterns_compiled l
  | _ :: l => patterns_compiled l

/-- The conditions of lines 411-462 under which `_process_channel` gets to the `switch`
that calls `channel_update`: the group exists, its keys verify, URL and spool directory
are set, the channel is not skipped as already known, and `channel_new` gives a
channel. -/
def reaches_update (env : ProcEnv) (flags : Flags) (channel_directory identifier : String)
    (defaults : Option channel_configuration) : Bool :=
  g_key_file_has_group env identifier && !decide (env.verify_keys identifier < 0) &&
    (match (env.configuration_new identifier defaults).url,
        (env.configuration_new identifier defaults).spool_directory with
     | some url, some spool_directory =>
       !decide (flags.new ≠ 0 ∧
          env.access (channel_file_name channel_directory identifier) = 0) &&
        env.channel_new_ok ⟨url, channel_file_name channel_directory identifier,
          spool_directory, (env.configuration_new identifier defaults).user_filename_spec,
          flags.resume⟩
     | _, _ => false)

/-- The filter selection as the specification words it: the command-line filter when
there is one; otherwise the filter compiled from the channel's `regex_filter` when that
is set; otherwise none. -/
def select_filter (env : ProcEnv) (cli_filter : Option enclosure_filter)
    (cfg : channel_configuration) : Option enclosure_filter :=
  match cli_filter with
  | some f => some f
  | none =>
    match cfg.regex_filter with
    | some regex_filter => env.enclosure_filter_new regex_filter false
    | none => none

/-- A call into the feed engine: `channel_new` or `channel_update`. -/
def is_engine_call : Event → Bool
  | .channel_new _ _ _ _ _ => true
  | .channel_update _ _ _ _ _ _ _ _ => true
  | _ => false

/-- The calls into the feed engine among the events, in order. -/
def engine_calls (events : List Event) : List Event :=
  events.filter is_engine_call

/-- The mode arguments of every `channel_update` call among the events: the callback,
`no_download`, `no_mark_read` and `resume`. -/
def update_args : List Event → List (channel_callback × Int × Int × Int)
  | [] => []
  | .channel_update _ _ cb no_download no_mark_read _ resume _ :: l =>
    (cb, no_download, no_mark_read, resume) :: update_args l
  | _ :: l => update_args l

/-- The `resume` argument of every `channel_new` call among the events. -/
def channel_new_resume : List Event → List Int
  | [] => []
  | .channel_new _ _ _ _ resume :: l => resume :: channel_new_resume l
  | _ :: l => channel_new_resume l

/-- The conditions of lines 411-450 under which `_process_channel` gets to call
`channel_new`: the group exists, its keys verify, URL and spool directory are set, and
the channel is not skipped as already known. -/
def reaches_channel_new (env : ProcEnv) (flags : Flags) (channel_directory identifier : String)
    (defaults : Option channel_configuration) : Bool :=
  g_key_file_has_group env identifier && !decide (env.verify_keys identifier < 0) &&
    (env.configuration_new identifier defaults).url.isSome &&
    (env.configuration_new identifier defaults).spool_directory.isSome &&
    !decide (flags.new ≠ 0 ∧
      env.access (channel_file_name channel_directory identifier) = 0)

/-! ## Theorems, part 1: the date parser -/

/-! ### Lemmas for the date parser -/

theorem dropWhile_stop {p : Char → Bool} {r : List Char}
    (hr : ∀ c, r.head? = some c → p c = false) : r.dropWhile p = r := by
  cases r with
  | nil => rfl
  | cons c t => simp [List.dropWhile_cons, hr c rfl]

theorem takeWhile_stop {p : Char → Bool} {r : List Char}
    (hr : ∀ c, r.head? = some c → p c = false) : r.takeWhile p = [] := by
  cases r with
  | nil => rfl
  | cons c t => simp [List.takeWhile_cons, hr c rfl]

theorem takeWhile_run {p : Char → Bool} {l r : List Char} (hl : ∀ c ∈ l, p c = true)
    (hr : ∀ c, r.head? = some c → p c = false) : (l ++ r).takeWhile p = l := by
  rw [List.takeWhile_append_of_pos hl, takeWhile_stop hr, List.append_nil]

theorem dropWhile_run {p : Char → Bool} {l r : List Char} (hl : ∀ c ∈ l, p c = true)
    (hr : ∀ c, r.head? = some c → p c = false) : (l ++ r).dropWhile p = r := by
  rw [List.dropWhile_append_of_pos hl, dropWhile_stop hr]

theorem isdigit_not_isspace {c : Char} (h : isdigit c = true) : isspace c = false := by
  simp only [isdigit, isspace, Bool.and_eq_true, decide_eq_true_eq, Bool.or_eq_false_iff,
    beq_eq_false_iff_ne, Bool.and_eq_false_iff, decide_eq_false_iff_not] at *
  omega

theorem isspace_not_isdigit {c : Char} (h : isspace c = true) : isdigit c = false := by
  cases hd : isdigit c with
  | false => rfl
  | true => rw [isdigit_not_isspace hd] at h; cases h

theorem isdigit_toNat {c : Char} (h : isdigit c = true) : 48 ≤ c.toNat ∧ c.toNat ≤ 57 := by
  simpa [isdigit] using h

theorem isspace_toNat {c : Char} (h : isspace c = true) :
    c.toNat = 32 ∨ (9 ≤ c.toNat ∧ c.toNat ≤ 13) := by
  simpa [isspace] using h

theorem ne_of_toNat_ne {c : Char} {n : Nat} (h : c.toNat ≠ (Char.ofNat n).toNat) :
    c ≠ Char.ofNat n := by
  rintro rfl
  exact h rfl

theorem foldl_digits_lt (ds : List Char) (hd : ∀ c ∈ ds, isdigit c = true) (acc : Nat) :
    ds.foldl (fun a c => a * 10 + (c.toNat - 48)) acc < (acc + 1) * 10 ^ ds.length := by
  induction ds generalizing acc with
  | nil => simp
  | cons c t ih =>
    have hc := isdigit_toNat (hd c (List.mem_cons_self c t))
    have ht := ih (fun x hx => hd x (List.mem_cons_of_mem c hx)) (acc * 10 + (c.toNat - 48))
    simp only [List.foldl_cons, List.length_cons]
    calc t.foldl (fun a c => a * 10 + (c.toNat - 48)) (acc * 10 + (c.toNat - 48))
        < (acc * 10 + (c.toNat - 48) + 1) * 10 ^ t.length := ht
      _ ≤ ((acc + 1) * 10) * 10 ^ t.length := by
          apply Nat.mul_le_mul_right
          omega
      _ = (acc + 1) * 10 ^ (t.length + 1) := by rw [pow_succ]; ring

theorem digits_value_lt (ds : List Char) (hd : ∀ c ∈ ds, isdigit c = true) :
    digits_value ds < 10 ^ ds.length := by
  have h := foldl_digits_lt ds hd 0
  simpa [digits_value] using h

theorem to_c_int_small {v : Int} (h1 : -(2 ^ 31) ≤ v) (h2 : v < 2 ^ 31) : to_c_int v = v := by
  unfold to_c_int
  have e1 : min v (2 ^ 63 - 1) = v := min_eq_left (by omega)
  have e2 : max (-(2 ^ 63)) v = v := max_eq_right (by omega)
  simp only [e1, e2]
  omega

theorem skip_space_run {ws r : List Char} (hw : ∀ c ∈ ws, isspace c = true)
    (hr : ∀ c, r.head? = some c → isspace c = false) : skip_space (ws ++ r) = r :=
  dropWhile_run hw hr

theorem scan_int_digits {ws ds r : List Char} (hw : ∀ c ∈ ws, isspace c = true)
    (hne : ds ≠ []) (hd : ∀ c ∈ ds, isdigit c = true)
    (hr : ∀ c, r.head? = some c → isdigit c = false) :
    scan_int (ws ++ (ds ++ r)) = some (to_c_int (digits_value ds), r) := by
  obtain ⟨d0, dt, rfl⟩ := List.exists_cons_of_ne_nil hne
  have h0 := hd d0 (List.mem_cons_self d0 dt)
  have hn := isdigit_toNat h0
  have hsk : skip_space (ws ++ (d0 :: dt ++ r)) = d0 :: dt ++ r :=
    skip_space_run hw (by intro c hc; simp at hc; subst hc; exact isdigit_not_isspace h0)
  have hm : d0 ≠ Char.ofNat 45 := ne_of_toNat_ne (by
    have : (Char.ofNat 45).toNat = 45 := by decide
    omega)
  have hp : d0 ≠ Char.ofNat 43 := ne_of_toNat_ne (by
    have : (Char.ofNat 43).toNat = 43 := by decide
    omega)
  have htk : (d0 :: dt ++ r).takeWhile isdigit = d0 :: dt := takeWhile_run hd hr
  have hdr : (d0 :: dt ++ r).dropWhile isdigit = r := dropWhile_run hd hr
  have hh : (d0 :: dt ++ r).head? = some d0 := rfl
  have hs1 : (some d0 == some (Char.ofNat 45)) = false := by simp [hm]
  have hs2 : (some d0 == some (Char.ofNat 43)) = false := by simp [hp]
  simp only [scan_int, hsk, hh, hs1, hs2, Bool.or_self, Bool.false_eq_true, if_false, htk, hdr]
  simp

theorem scan_token_run {ws tok r : List Char} (hw : ∀ c ∈ ws, isspace c = true)
    (hne : tok ≠ []) (ht : ∀ c ∈ tok, isspace c = false)
    (hr : ∀ c, r.head? = some c → isspace c = true) :
    scan_token (ws ++ (tok ++ r)) = some (tok, r) := by
  obtain ⟨t0, tt, rfl⟩ := List.exists_cons_of_ne_nil hne
  have h0 := ht t0 (List.mem_cons_self t0 tt)
  have hsk : skip_space (ws ++ (t0 :: tt ++ r)) = t0 :: tt ++ r :=
    skip_space_run hw (by intro c hc; simp at hc; subst hc; exact h0)
  have hl : ∀ c ∈ t0 :: tt, (fun c => !isspace c) c = true := by
    intro c hc; simp [ht c hc]
  have hr2 : ∀ c, r.head? = some c → (fun c => !isspace c) c = false := by
    intro c hc; simp [hr c hc]
  have htk : (t0 :: tt ++ r).takeWhile (fun c => !isspace c) = t0 :: tt := takeWhile_run hl hr2
  have hdr : (t0 :: tt ++ r).dropWhile (fun c => !isspace c) = r := dropWhile_run hl hr2
  unfold scan_token
  simp only [hsk, htk, hdr]
  simp

theorem isspace_sp : isspace (Char.ofNat 32) = true := by decide

theorem not_weekday_of_digit {d0 : Char} (t : List Char) (h : isdigit d0 = true) :
    ∀ e ∈ dayStr, strncmp_eq (d0 :: t) e 3 = false := by
  intro e he
  cases hb : strncmp_eq (d0 :: t) e 3 with
  | false => rfl
  | true =>
    exfalso
    have hh : e.head? = some d0 := by
      simp only [dayStr, List.mem_cons, List.mem_singleton, List.not_mem_nil, or_false] at he
      rcases he with rfl | rfl | rfl | rfl | rfl | rfl | rfl <;>
        (simp [strncmp_eq] at hb; simp [hb.1])
    simp only [dayStr, List.mem_cons, List.mem_singleton, List.not_mem_nil, or_false] at he
    rcases he with rfl | rfl | rfl | rfl | rfl | rfl | rfl <;>
      (simp at hh; subst hh; revert h; decide)

theorem skip_day_field_digit {d0 : Char} (t : List Char) (h : isdigit d0 = true) :
    skip_day_field (d0 :: t) = some (d0 :: t) := by
  have hi : table_index dayStr (d0 :: t) = dayStr.length :=
    List.findIdx_eq_length_of_false (not_weekday_of_digit t h)
  simp [skip_day_field, hi]

theorem weekday_take {w : List Char} (hw : w ∈ dayStr) (x : List Char) :
    strncmp_eq (w ++ x) w 3 = true ∧ (w ++ x).drop 3 = x ∧
      (∀ c ∈ w, isspace c = false) ∧ w ≠ [] := by
  simp only [dayStr, List.mem_cons, List.mem_singleton, List.not_mem_nil, or_false] at hw
  rcases hw with rfl | rfl | rfl | rfl | rfl | rfl | rfl <;>
    exact ⟨by simp [strncmp_eq], rfl, by decide, by decide⟩

theorem skip_day_field_comma {w ws1 ws2 : List Char} {d0 : Char} (t : List Char)
    (hw : w ∈ dayStr) (h1 : ∀ c ∈ ws1, isspace c = true)
    (h2 : ∀ c ∈ ws2, isspace c = true) (h0 : isdigit d0 = true) :
    skip_day_field (w ++ (ws1 ++ (Char.ofNat 44 :: (ws2 ++ d0 :: t)))) = some (d0 :: t) := by
  obtain ⟨hcmp, hdrop, -, -⟩ := weekday_take hw (ws1 ++ (Char.ofNat 44 :: (ws2 ++ d0 :: t)))
  have hi : table_index dayStr (w ++ (ws1 ++ (Char.ofNat 44 :: (ws2 ++ d0 :: t))))
      < dayStr.length := List.findIdx_lt_length_of_exists ⟨w, hw, hcmp⟩
  have hcore : ∀ c, (d0 :: t).head? = some c → isspace c = false := by
    intro c hc; simp at hc; subst hc; exact isdigit_not_isspace h0
  have hs2 : skip_space (ws2 ++ d0 :: t) = d0 :: t := skip_space_run h2 hcore
  have hs1 : skip_space (ws1 ++ (Char.ofNat 44 :: (ws2 ++ d0 :: t)))
      = Char.ofNat 44 :: (ws2 ++ d0 :: t) :=
    skip_space_run h1 (by intro c hc; simp at hc; subst hc; decide)
  simp only [skip_day_field, if_pos hi, hdrop, hs1]
  simp [hs2]

theorem skip_day_field_plain {w ws : List Char} {d0 : Char} (t : List Char)
    (hw : w ∈ dayStr) (h1 : ∀ c ∈ ws, isspace c = true) (h0 : isdigit d0 = true) :
    skip_day_field (w ++ (ws ++ d0 :: t)) = some (d0 :: t) := by
  obtain ⟨hcmp, hdrop, -, -⟩ := weekday_take hw (ws ++ d0 :: t)
  have hi : table_index dayStr (w ++ (ws ++ d0 :: t)) < dayStr.length :=
    List.findIdx_lt_length_of_exists ⟨w, hw, hcmp⟩
  have hcore : ∀ c, (d0 :: t).head? = some c → isspace c = false := by
    intro c hc; simp at hc; subst hc; exact isdigit_not_isspace h0
  have hd44 : d0 ≠ Char.ofNat 44 := ne_of_toNat_ne (by
    have := isdigit_toNat h0
    have : (Char.ofNat 44).toNat = 44 := by decide
    omega)
  have hs1 : skip_space (ws ++ d0 :: t) = d0 :: t := skip_space_run h1 hcore
  have hsc : skip_space (d0 :: t) = d0 :: t := dropWhile_stop hcore
  simp only [skip_day_field, if_pos hi, hdrop, hs1]
  simp [hd44, hsc]

theorem month_index {m : Nat} {mon : List Char} (h : monthStr[m]? = some mon) :
    table_index monthStr mon = m ∧ m < 12 ∧ mon ≠ [] ∧ strlen mon < mStr_size ∧
      (∀ c ∈ mon, isspace c = false) ∧ (∀ c ∈ mon, (c.toNat != 0) = true) := by
  have hm : m < 12 := by
    by_contra hc
    have : monthStr.length ≤ m := by simp [monthStr]; omega
    rw [List.getElem?_eq_none this] at h
    cases h
  interval_cases m <;>
    (simp [monthStr] at h; subst h; exact ⟨by decide, by decide, by decide, by decide,
      by decide, by decide⟩)

theorem sscanf_fields {ds mon ys suf : List Char} {m : Nat}
    (hne : ds ≠ []) (hd : ∀ c ∈ ds, isdigit c = true) (hmon : monthStr[m]? = some mon)
    (hyne : ys ≠ []) (hy : ∀ c ∈ ys, isdigit c = true)
    (hsuf : ∀ c, suf.head? = some c → isspace c = true) :
    sscanf_d_s_d (ds ++ (Char.ofNat 32 :: (mon ++ (Char.ofNat 32 :: (ys ++ suf)))))
      = .three (to_c_int (digits_value ds)) mon (to_c_int (digits_value ys)) := by
  obtain ⟨-, -, hmne, hlen, hmsp, -⟩ := month_index hmon
  have e1 : scan_int (ds ++ (Char.ofNat 32 :: (mon ++ (Char.ofNat 32 :: (ys ++ suf)))))
      = some (to_c_int (digits_value ds), Char.ofNat 32 :: (mon ++ (Char.ofNat 32 :: (ys ++ suf)))) :=
    @scan_int_digits [] _ _ (by simp) hne hd (by intro c hc; simp at hc; subst hc; decide)
  have e2 : scan_token (Char.ofNat 32 :: (mon ++ (Char.ofNat 32 :: (ys ++ suf))))
      = some (mon, Char.ofNat 32 :: (ys ++ suf)) :=
    @scan_token_run [Char.ofNat 32] _ _ (by simp [isspace_sp]) hmne hmsp
      (by intro c hc; simp at hc; subst hc; decide)
  have e3 : scan_int (Char.ofNat 32 :: (ys ++ suf))
      = some (to_c_int (digits_value ys), suf) :=
    @scan_int_digits [Char.ofNat 32] _ _ (by simp [isspace_sp]) hyne hy
      (fun c hc => isspace_not_isdigit (hsuf c hc))
  have hl : ¬ mStr_size ≤ strlen mon := by omega
  simp only [sscanf_d_s_d, e1, e2, e3, if_neg hl]

theorem c_str_append {a : List Char} (b : List Char) (ha : ∀ c ∈ a, (c.toNat != 0) = true) :
    c_str (a ++ b) = a ++ c_str b :=
  List.takeWhile_append_of_pos ha

theorem c_str_head {suf : List Char} (hsuf : ∀ c, suf.head? = some c → isspace c = true) :
    ∀ c, (c_str suf).head? = some c → isspace c = true := by
  intro c hc
  cases suf with
  | nil => simp [c_str] at hc
  | cons x t =>
    have hx := hsuf x rfl
    have hnz : (x.toNat != 0) = true := by
      have := isspace_toNat hx
      simp only [bne_iff_ne, ne_eq]
      omega
    have e : c_str (x :: t) = x :: c_str t := by
      unfold c_str
      exact List.takeWhile_cons_of_pos hnz
    rw [e] at hc
    simp only [List.head?_cons, Option.some.injEq] at hc
    subst hc
    exact hx

theorem nul_free_of_isdigit {l : List Char} (h : ∀ c ∈ l, isdigit c = true) :
    ∀ c ∈ l, (c.toNat != 0) = true := by
  intro c hc
  have := isdigit_toNat (h c hc)
  simp only [bne_iff_ne, ne_eq]
  omega

theorem nul_free_of_isspace {l : List Char} (h : ∀ c ∈ l, isspace c = true) :
    ∀ c ∈ l, (c.toNat != 0) = true := by
  intro c hc
  have := isspace_toNat (h c hc)
  simp only [bne_iff_ne, ne_eq]
  omega

theorem nul_free_weekday {w : List Char} (hw : w ∈ dayStr) :
    ∀ c ∈ w, (c.toNat != 0) = true := by
  simp only [dayStr, List.mem_cons, List.mem_singleton, List.not_mem_nil, or_false] at hw
  rcases hw with rfl | rfl | rfl | rfl | rfl | rfl | rfl <;> decide

theorem day_le_of_valid {d m y : Nat} (h : g_date_valid_dmy d m y = true) : d ≤ 31 := by
  simp only [g_date_valid_dmy, Bool.and_eq_true, decide_eq_true_eq] at h
  have hd := h.2
  unfold days_in_months at hd
  split at hd <;> try omega
  split at hd <;> omega

theorem set_dmy_of_valid {d m y : Nat} (h : g_date_valid_dmy d m y = true) (hy : y < 65536) :
    g_date_set_dmy g_date_new (to_c_int d) m (adjust_year (to_c_int y)) = ⟨true, d, m, y⟩ ∨
      y < 1900 := by
  by_cases h19 : y < 1900
  · exact Or.inr h19
  · left
    have hd := day_le_of_valid h
    have e1 : to_c_int (d : Int) = d := to_c_int_small (by omega) (by omega)
    have e2 : to_c_int (y : Int) = y := to_c_int_small (by omega) (by omega)
    have e3 : adjust_year (y : Int) = y := by
      unfold adjust_year
      rw [if_neg (by omega)]
    have e4 : ((d : Int) % 256).toNat = d := by omega
    have e5 : ((y : Int) % 65536).toNat = y := by omega
    simp only [g_date_set_dmy, e1, e2, e3, e4, e5, h, if_true]

/-- The parser from the point where the day field has been skipped: a
`day month year` text with a table month and a year of 1900 or more gives that date. -/
theorem parse_after_day_field {dstr ds mon ys suf : List Char} {m : Nat}
    (h1 : skip_space (c_str dstr) ≠ [])
    (h2 : skip_day_field (skip_space (c_str dstr))
      = some (ds ++ (Char.ofNat 32 :: (mon ++ (Char.ofNat 32 :: (ys ++ suf))))))
    (hne : ds ≠ []) (hd : ∀ c ∈ ds, isdigit c = true) (hmon : monthStr[m]? = some mon)
    (hyl : ys.length = 4) (hy : ∀ c ∈ ys, isdigit c = true)
    (h19 : 1900 ≤ digits_value ys)
    (hreal : g_date_valid_dmy (digits_value ds) (m + 1) (digits_value ys) = true)
    (hsuf : ∀ c, suf.head? = some c → isspace c = true) :
    libcastget_parse_rfc822_date dstr
      = .returned ⟨true, digits_value ds, m + 1, digits_value ys⟩ := by
  have hyne : ys ≠ [] := by
    intro h; rw [h] at hyl; cases hyl
  have hsc := sscanf_fields hne hd hmon hyne hy hsuf
  obtain ⟨hidx, hm12, -, -, -, -⟩ := month_index hmon
  have hylt : digits_value ys < 65536 := by
    have := digits_value_lt ys hy
    rw [hyl] at this
    omega
  have hset := (set_dmy_of_valid hreal hylt).resolve_right (by omega)
  have hemp : (skip_space (c_str dstr)).isEmpty = false := by
    cases hs : skip_space (c_str dstr) with
    | nil => exact absurd hs h1
    | cons a b => rfl
  have hi : ¬ (m = monthStr.length) := by
    have : monthStr.length = 12 := rfl
    omega
  simp only [libcastget_parse_rfc822_date, hemp, h2, hsc, hidx, if_neg hi, hset]
  simp

/-- C1. For every day numeral `ds`, month abbreviation `mon` (entry `m` of the 12-entry
table) and four-digit year numeral `ys` of value 1900 or more that together form a real
calendar date, the text `ds mon ys` parses to the valid date (day, m + 1, year); the same
date results when the text is preceded by one of the seven weekday abbreviations, with or
without a comma after it, and when it is followed by any suffix that is empty or starts
with white space. -/
theorem parse_rfc822_date_valid (pre ds mon ys suf : List Char) (m : Nat)
    (hpre : pre = [] ∨ ∃ w ws1 ws2, w ∈ dayStr ∧ (∀ c ∈ ws1, isspace c = true) ∧
      (∀ c ∈ ws2, isspace c = true) ∧
      (pre = w ++ ws1 ∨ pre = w ++ ws1 ++ ",".toList ++ ws2))
    (hds : ds ≠ [] ∧ ∀ c ∈ ds, isdigit c = true)
    (hmon : monthStr[m]? = some mon)
    (hys : ys.length = 4 ∧ ∀ c ∈ ys, isdigit c = true)
    (h1900 : 1900 ≤ digits_value ys)
    (hreal : g_date_valid_dmy (digits_value ds) (m + 1) (digits_value ys) = true)
    (hsuf : ∀ c, suf.head? = some c → isspace c = true) :
    libcastget_parse_rfc822_date (pre ++ ds ++ " ".toList ++ mon ++ " ".toList ++ ys ++ suf)
      = .returned ⟨true, digits_value ds, m + 1, digits_value ys⟩ := by
  obtain ⟨hne, hd⟩ := hds
  obtain ⟨hyl, hy⟩ := hys
  obtain ⟨-, -, -, -, -, hmnz⟩ := month_index hmon
  have hsp : " ".toList = [Char.ofNat 32] := rfl
  have hcm : ",".toList = [Char.ofNat 44] := rfl
  have hsuf2 := c_str_head hsuf
  obtain ⟨d0, dt, rfl⟩ := List.exists_cons_of_ne_nil hne
  have h0 := hd d0 (List.mem_cons_self d0 dt)
  have hdz := nul_free_of_isdigit hd
  have hyz := nul_free_of_isdigit hy
  have hpz : ∀ c ∈ pre, (c.toNat != 0) = true := by
    rcases hpre with rfl | ⟨w, ws1, ws2, hw, h1, h2, rfl | rfl⟩
    · simp
    · intro c hc
      rcases List.mem_append.mp hc with hc | hc
      · exact nul_free_weekday hw c hc
      · exact nul_free_of_isspace h1 c hc
    · intro c hc
      simp only [hcm, List.mem_append, List.mem_singleton] at hc
      rcases hc with ((hc | hc) | hc) | hc
      · exact nul_free_weekday hw c hc
      · exact nul_free_of_isspace h1 c hc
      · subst hc; decide
      · exact nul_free_of_isspace h2 c hc
  have hcs : c_str (pre ++ (d0 :: dt) ++ " ".toList ++ mon ++ " ".toList ++ ys ++ suf)
      = pre ++ (d0 :: (dt ++ (Char.ofNat 32 :: (mon ++ (Char.ofNat 32 :: (ys ++ c_str suf)))))) := by
    rw [c_str_append]
    · simp [hsp]
    · intro c hc
      simp only [hsp, List.mem_append, List.mem_singleton] at hc
      rcases hc with ((((hc | hc) | hc) | hc) | hc) | hc
      · exact hpz c hc
      · exact hdz c hc
      · subst hc; decide
      · exact hmnz c hc
      · subst hc; decide
      · exact hyz c hc
  have hcore : ∀ c, (d0 :: (dt ++ (Char.ofNat 32 :: (mon ++ (Char.ofNat 32 ::
      (ys ++ c_str suf)))))).head? = some c → isspace c = false := by
    intro c hc; simp at hc; subst hc; exact isdigit_not_isspace h0
  have hskip : skip_space (pre ++ (d0 :: (dt ++ (Char.ofNat 32 :: (mon ++ (Char.ofNat 32 ::
        (ys ++ c_str suf)))))))
      = pre ++ (d0 :: (dt ++ (Char.ofNat 32 :: (mon ++ (Char.ofNat 32 :: (ys ++ c_str suf))))))
      ∧ skip_day_field (pre ++ (d0 :: (dt ++ (Char.ofNat 32 :: (mon ++ (Char.ofNat 32 ::
        (ys ++ c_str suf)))))))
      = some (d0 :: (dt ++ (Char.ofNat 32 :: (mon ++ (Char.ofNat 32 :: (ys ++ c_str suf)))))) := by
    rcases hpre with rfl | ⟨w, ws1, ws2, hw, h1, h2, rfl | rfl⟩
    · exact ⟨dropWhile_stop hcore, skip_day_field_digit _ h0⟩
    · obtain ⟨-, -, hwsp, hwne⟩ := weekday_take hw []
      obtain ⟨w0, wt, rfl⟩ := List.exists_cons_of_ne_nil hwne
      refine ⟨dropWhile_stop ?_, ?_⟩
      · intro c hc
        simp only [List.cons_append, List.head?_cons, Option.some.injEq] at hc
        subst hc
        exact hwsp _ (List.mem_cons_self _ _)
      · rw [List.append_assoc]
        exact skip_day_field_plain _ hw h1 h0
    · obtain ⟨-, -, hwsp, hwne⟩ := weekday_take hw []
      obtain ⟨w0, wt, rfl⟩ := List.exists_cons_of_ne_nil hwne
      refine ⟨dropWhile_stop ?_, ?_⟩
      · intro c hc
        simp only [List.cons_append, List.head?_cons, Option.some.injEq] at hc
        subst hc
        exact hwsp _ (List.mem_cons_self _ _)
      · rw [hcm]
        simp only [List.append_assoc, List.singleton_append]
        exact skip_day_field_comma _ hw h1 h2 h0
  refine @parse_after_day_field _ _ _ _ (c_str suf) _ ?_ ?_ hne hd hmon hyl hy h1900 hreal hsuf2
  · rw [hcs, hskip.1]
    simp
  · rw [hcs, hskip.1, hskip.2]
    simp

/-- C1 at `Sun, 06 Nov 1994 08:49:37 GMT`: the date is 6 November 1994. -/
theorem parse_rfc822_date_valid_witness :
    libcastget_parse_rfc822_date "Sun, 06 Nov 1994 08:49:37 GMT".toList
      = .returned ⟨true, 6, 11, 1994⟩ :=
  parse_rfc822_date_valid "Sun, ".toList "06".toList "Nov".toList "1994".toList
    " 08:49:37 GMT".toList 10
    (Or.inr ⟨"Sun".toList, [], " ".toList, by decide, by decide, by decide, Or.inr rfl⟩)
    ⟨by decide, by decide⟩ rfl ⟨rfl, by decide⟩ (by decide) (by decide)
    (by intro c hc; cases hc; decide)

theorem parse_unfold {str dstr mStr : List Char} {day y : Int}
    (hne : skip_space (c_str str) ≠ [])
    (hskip : skip_day_field (skip_space (c_str str)) = some dstr)
    (hscan : sscanf_d_s_d dstr = .three day mStr y) :
    libcastget_parse_rfc822_date str = .returned
      (if table_index monthStr mStr = monthStr.length then g_date_new
       else g_date_set_dmy g_date_new day (table_index monthStr mStr + 1) (adjust_year y)) := by
  have hemp : (skip_space (c_str str)).isEmpty = false := by
    cases hs : skip_space (c_str str) with
    | nil => exact absurd hs hne
    | cons a b => rfl
  simp only [libcastget_parse_rfc822_date, hemp, hskip, hscan]
  by_cases hi : table_index monthStr mStr = monthStr.length
  · simp [hi]
  · simp [hi]

theorem set_dmy_year {date : GDate} {day y : Int} {m : Nat}
    (hv : g_date_valid (g_date_set_dmy g_date_new day m y) = true)
    (hd : date = g_date_set_dmy g_date_new day m y) (h0 : 0 ≤ y) (h1 : y < 65536) :
    (date.year : Int) = y := by
  subst hd
  unfold g_date_set_dmy at hv ⊢
  by_cases hc : g_date_valid_dmy (day % 256).toNat m (y % 65536).toNat = true
  · simp only [hc, if_true]
    omega
  · simp only [hc] at hv
    simp [g_date_valid, g_date_new] at hv

/-- C2. Two-digit year rule: when the year that `sscanf` reads is `y` with
`0 ≤ y ≤ 99`, the date is set with the year `1900 + y` if `50 ≤ y` and `2000 + y`
otherwise (with the scanned day and the table month), and every valid date the call
returns has exactly that year. -/
theorem two_digit_year_rule (str dstr mStr : List Char) (day y : Int)
    (hne : skip_space (c_str str) ≠ [])
    (hskip : skip_day_field (skip_space (c_str str)) = some dstr)
    (hscan : sscanf_d_s_d dstr = .three day mStr y)
    (hy : 0 ≤ y ∧ y ≤ 99) :
    libcastget_parse_rfc822_date str = .returned
        (if table_index monthStr mStr = monthStr.length then g_date_new
         else g_date_set_dmy g_date_new day (table_index monthStr mStr + 1)
           (if 50 ≤ y then 1900 + y else 2000 + y)) ∧
      ∀ date, libcastget_parse_rfc822_date str = .returned date → g_date_valid date = true →
        (date.year : Int) = if 50 ≤ y then 1900 + y else 2000 + y := by
  have hadj : adjust_year y = if 50 ≤ y then 1900 + y else 2000 + y := by
    unfold adjust_year
    by_cases h50 : 50 ≤ y
    · rw [if_pos (by omega), if_neg (by omega), if_pos h50]; omega
    · rw [if_pos (by omega), if_pos (by omega), if_neg h50]; omega
  have hun := parse_unfold hne hskip hscan
  rw [hadj] at hun
  refine ⟨hun, ?_⟩
  intro date hret hvalid
  rw [hun] at hret
  have hdate := (ParseOutcome.returned.inj hret).symm
  by_cases hi : table_index monthStr mStr = monthStr.length
  · rw [if_pos hi] at hdate
    subst hdate
    simp [g_date_valid, g_date_new] at hvalid
  · rw [if_neg hi] at hdate
    have hv2 := hvalid
    rw [hdate] at hv2
    refine set_dmy_year hv2 hdate ?_ ?_ <;> split <;> omega

/-- C2 at `06 Nov 94 08:49:37 GMT`: the year read is 94 and the date is
6 November 1994. -/
theorem two_digit_year_rule_witness :
    libcastget_parse_rfc822_date "06 Nov 94 08:49:37 GMT".toList
      = .returned ⟨true, 6, 11, 1994⟩ :=
  (two_digit_year_rule "06 Nov 94 08:49:37 GMT".toList "06 Nov 94 08:49:37 GMT".toList
    "Nov".toList 6 94 (by decide) (by decide) (by decide) (by decide)).1

/-- C3, as the code has it: the text `06 Nov 1850` has a four-digit year and names a real
date, and the date returned has the year 3750. -/
theorem four_digit_year_below_1900_changed :
    g_date_valid_dmy 6 11 1850 = true ∧
      libcastget_parse_rfc822_date "06 Nov 1850".toList = .returned ⟨true, 6, 11, 3750⟩ := by
  decide

theorem year_from_1900_kept {str dstr mStr : List Char} {day y : Int}
    (hne : skip_space (c_str str) ≠ [])
    (hskip : skip_day_field (skip_space (c_str str)) = some dstr)
    (hscan : sscanf_d_s_d dstr = .three day mStr y)
    (hy : 1900 ≤ y ∧ y ≤ 9999)
    (hreal : 0 ≤ day ∧
      g_date_valid_dmy day.toNat (table_index monthStr mStr + 1) y.toNat = true) :
    libcastget_parse_rfc822_date str
      = .returned ⟨true, day.toNat, table_index monthStr mStr + 1, y.toNat⟩ := by
  have hun := parse_unfold hne hskip hscan
  have hm : ¬ table_index monthStr mStr = monthStr.length := by
    intro hc
    have hv := hreal.2
    rw [hc] at hv
    simp [g_date_valid_dmy, monthStr] at hv
  have hd31 := day_le_of_valid hreal.2
  have hadj : adjust_year y = y := by
    unfold adjust_year
    rw [if_neg (by omega)]
  have e4 : (day % 256).toNat = day.toNat := by omega
  have e5 : (y % 65536).toNat = y.toNat := by omega
  rw [hun, if_neg hm, hadj]
  simp only [g_date_set_dmy, e4, e5, hreal.2, if_true]

theorem year_below_1900_shifted {str dstr mStr : List Char} {day y : Int}
    (hne : skip_space (c_str str) ≠ [])
    (hskip : skip_day_field (skip_space (c_str str)) = some dstr)
    (hscan : sscanf_d_s_d dstr = .three day mStr y)
    (hy : 1000 ≤ y ∧ y ≤ 1899) :
    libcastget_parse_rfc822_date str = .returned
        (if table_index monthStr mStr = monthStr.length then g_date_new
         else g_date_set_dmy g_date_new day (table_index monthStr mStr + 1) (y + 1900)) ∧
      (0 ≤ day ∧
        g_date_valid_dmy day.toNat (table_index monthStr mStr + 1) (y + 1900).toNat = true →
        libcastget_parse_rfc822_date str
          = .returned ⟨true, day.toNat, table_index monthStr mStr + 1, (y + 1900).toNat⟩) ∧
      ∀ date, libcastget_parse_rfc822_date str = .returned date → g_date_valid date = true →
        (date.year : Int) = y + 1900 := by
  have hadj : adjust_year y = y + 1900 := by
    unfold adjust_year
    rw [if_pos (by omega), if_neg (by omega)]
  have hun := parse_unfold hne hskip hscan
  rw [hadj] at hun
  refine ⟨hun, ?_, ?_⟩
  · intro hreal
    have hm : ¬ table_index monthStr mStr = monthStr.length := by
      intro hc
      have hv := hreal.2
      rw [hc] at hv
      simp [g_date_valid_dmy, monthStr] at hv
    have hd31 := day_le_of_valid hreal.2
    have e4 : (day % 256).toNat = day.toNat := by omega
    have e5 : ((y + 1900) % 65536).toNat = (y + 1900).toNat := by omega
    rw [hun, if_neg hm]
    simp only [g_date_set_dmy, e4, e5, hreal.2, if_true]
  · intro date hret hvalid
    rw [hun] at hret
    have hdate := (ParseOutcome.returned.inj hret).symm
    by_cases hi : table_index monthStr mStr = monthStr.length
    · rw [if_pos hi] at hdate
      subst hdate
      simp [g_date_valid, g_date_new] at hvalid
    · rw [if_neg hi] at hdate
      have hv2 := hvalid
      rw [hdate] at hv2
      exact set_dmy_year hv2 hdate (by omega) (by omega)

/-- C3, amended. When the year that `sscanf` reads is a four-digit number from 1900 to
9999 and the scanned day and the table month form a real date in that year, the call
returns that date, its year the one written in the input. When the year read is a
four-digit number from 1000 to 1899, the date is set with that year plus 1900: the call
returns the date of the scanned day and the table month in the year plus 1900 when that
is a real date, and every valid date it returns has the year plus 1900. -/
theorem four_digit_year_kept (str dstr mStr : List Char) (day y : Int)
    (hne : skip_space (c_str str) ≠ [])
    (hskip : skip_day_field (skip_space (c_str str)) = some dstr)
    (hscan : sscanf_d_s_d dstr = .three day mStr y) :
    (1900 ≤ y ∧ y ≤ 9999 →
      0 ≤ day ∧ g_date_valid_dmy day.toNat (table_index monthStr mStr + 1) y.toNat = true →
      libcastget_parse_rfc822_date str
        = .returned ⟨true, day.toNat, table_index monthStr mStr + 1, y.toNat⟩) ∧
    (1000 ≤ y ∧ y ≤ 1899 →
      libcastget_parse_rfc822_date str = .returned
          (if table_index monthStr mStr = monthStr.length then g_date_new
           else g_date_set_dmy g_date_new day (table_index monthStr mStr + 1) (y + 1900)) ∧
        (0 ≤ day ∧
          g_date_valid_dmy day.toNat (table_index monthStr mStr + 1) (y + 1900).toNat = true →
          libcastget_parse_rfc822_date str
            = .returned ⟨true, day.toNat, table_index monthStr mStr + 1,
                (y + 1900).toNat⟩) ∧
        ∀ date, libcastget_parse_rfc822_date str = .returned date →
          g_date_valid date = true → (date.year : Int) = y + 1900) :=
  ⟨fun hy hreal => year_from_1900_kept hne hskip hscan hy hreal,
    fun hy => year_below_1900_shifted hne hskip hscan hy⟩

/-- C3 amended, at `Tue, 29 Feb 2000 12:00:00 +0000`, where the date is 29 February 2000,
and at `01 Jan 1066`, where it is 1 January 2966. -/
theorem four_digit_year_kept_witness :
    libcastget_parse_rfc822_date "Tue, 29 Feb 2000 12:00:00 +0000".toList
        = .returned ⟨true, 29, 2, 2000⟩ ∧
      libcastget_parse_rfc822_date "01 Jan 1066".toList = .returned ⟨true, 1, 1, 2966⟩ :=
  ⟨(four_digit_year_kept "Tue, 29 Feb 2000 12:00:00 +0000".toList
      "29 Feb 2000 12:00:00 +0000".toList "Feb".toList 29 2000 (by decide) (by decide)
      (by decide)).1 (by decide) (by decide),
    ((four_digit_year_kept "01 Jan 1066".toList "01 Jan 1066".toList "Jan".toList 1 1066
      (by decide) (by decide) (by decide)).2 (by decide)).2.1 (by decide)⟩

/-- C4 at a month token of 26 bytes: `sscanf` stores the token and its NUL past the end
of `char mStr[20]`, so the call does not return a date. -/
theorem parse_long_month_token_overruns :
    sscanf_d_s_d "01 JanuaryFebruaryMarchApril 2000".toList = .overrun ∧
      libcastget_parse_rfc822_date "01 JanuaryFebruaryMarchApril 2000".toList = .overrun ∧
      ∀ date, libcastget_parse_rfc822_date "01 JanuaryFebruaryMarchApril 2000".toList
        ≠ .returned date := by
  refine ⟨by decide, by decide, ?_⟩
  intro date h
  have h2 : libcastget_parse_rfc822_date "01 JanuaryFebruaryMarchApril 2000".toList
      = .overrun := by decide
  rw [h2] at h
  cases h

/-- The parser on the inputs that stay inside `mStr`: the call returns a date unless
`sscanf` overruns `mStr`, and the date is the invalid one when the text is empty or white
space only, when nothing follows the weekday abbreviation, when `sscanf` makes fewer than
three conversions, and when the first three characters of the month token are not a table
entry. -/
theorem parse_invalid_cases (str : List Char) :
    ((∃ date, libcastget_parse_rfc822_date str = .returned date) ∨
      (libcastget_parse_rfc822_date str = .overrun ∧
        ∃ dstr, skip_day_field (skip_space (c_str str)) = some dstr ∧
          sscanf_d_s_d dstr = .overrun)) ∧
    (skip_space (c_str str) = [] →
      libcastget_parse_rfc822_date str = .returned g_date_new) ∧
    (skip_day_field (skip_space (c_str str)) = none →
      libcastget_parse_rfc822_date str = .returned g_date_new) ∧
    (∀ dstr n, skip_day_field (skip_space (c_str str)) = some dstr →
      sscanf_d_s_d dstr = .fewer n →
      libcastget_parse_rfc822_date str = .returned g_date_new) ∧
    (∀ dstr day mStr y, skip_day_field (skip_space (c_str str)) = some dstr →
      sscanf_d_s_d dstr = .three day mStr y →
      (∀ e ∈ monthStr, strncmp_eq mStr e 3 = false) →
      libcastget_parse_rfc822_date str = .returned g_date_new) := by
  have hmain : ∀ r, skip_day_field (skip_space (c_str str)) = r →
      (skip_space (c_str str)).isEmpty = false ∨ (skip_space (c_str str)).isEmpty = true := by
    intro _ _
    cases (skip_space (c_str str)).isEmpty <;> simp
  refine ⟨?_, ?_, ?_, ?_, ?_⟩
  · unfold libcastget_parse_rfc822_date
    simp only []
    split
    · exact Or.inl ⟨_, rfl⟩
    · split
      · exact Or.inl ⟨_, rfl⟩
      · rename_i dstr hd
        split
        · rename_i hsc
          exact Or.inr ⟨rfl, dstr, hd, hsc⟩
        · exact Or.inl ⟨_, rfl⟩
        · split <;> exact Or.inl ⟨_, rfl⟩
  · intro h
    simp [libcastget_parse_rfc822_date, h]
  · intro h
    unfold libcastget_parse_rfc822_date
    simp only [h]
    split <;> rfl
  · intro dstr n h1 h2
    unfold libcastget_parse_rfc822_date
    simp only [h1, h2]
    split <;> rfl
  · intro dstr day mStr y h1 h2 h3
    have hi : table_index monthStr mStr = monthStr.length :=
      List.findIdx_eq_length_of_false h3
    unfold libcastget_parse_rfc822_date
    simp only [h1, h2, hi, if_true]
    split <;> rfl

/-! ## Theorems, part 2: `write_by_temporary_file` -/

theorem tmp_name_ne (fn x : String) : tmp_name fn x ≠ fn := by
  intro h
  have hl := congrArg String.length h
  simp only [tmp_name, String.length_append] at hl
  have h1 : ".".length = 1 := rfl
  omega

theorem open_temporary_ok {s : Sys} {env : Env} {fn x : String}
    (htmp : env.mkstemp_names.find? (fun x => (s.files (tmp_name fn x)).isNone) = some x) :
    open_temporary s env (some fn) = .ok (tmp_name fn x, s.store (tmp_name fn x) []) := by
  simp only [open_temporary, htmp]

theorem open_temporary_files {s s1 : Sys} {env : Env} {fn tmp : String}
    (h : open_temporary s env (some fn) = .ok (tmp, s1)) :
    tmp ≠ fn ∧ s1.files fn = s.files fn ∧ s1.errno = s.errno := by
  unfold open_temporary at h
  simp only at h
  split at h
  · rename_i x hx
    cases h
    refine ⟨tmp_name_ne fn x, ?_, rfl⟩
    simp [Sys.store, (tmp_name_ne fn x).symm]
  · cases h

theorem open_temporary_error_files {s s1 : Sys} {env : Env} {filename : Option String}
    (h : open_temporary s env filename = .error s1) : s1.files = s.files := by
  unfold open_temporary at h
  split at h
  · split at h
    · cases h
    · cases h; rfl
  · split at h
    · split at h
      · cases h
      · cases h; rfl
    · cases h; rfl

theorem after_close_files (s1 : Sys) (env : Env) (tmp : String) (w : Writer) (q : String) :
    (after_close s1 env tmp w).files q = if q = tmp then some w.written else s1.files q := by
  unfold after_close
  cases env.close_enospc <;> simp [Sys.store]

theorem after_close_errno (s1 : Sys) (env : Env) (tmp : String) (w : Writer) :
    (after_close s1 env tmp w).errno
      = if env.close_enospc = true then ENOSPC else w.errno.getD s1.errno := by
  unfold after_close
  cases env.close_enospc <;> simp [Sys.store]

/-- C5 at a writer that writes two bytes and returns 1, with no error from the system:
the call returns 1, the target keeps its content, and the temporary file
`ep.mp3.AbC123` stays in the file system, holding the two bytes, its name stored through
`used_filename`. -/
theorem writer_failure_leaves_temporary_file :
    (write_by_temporary_file
        ⟨fun q => if q = "ep.mp3" then some [1, 2, 3] else none, 0⟩
        ⟨["AbC123"], none, none, false, none⟩ (some "ep.mp3") ⟨[9, 9], 1, none⟩).retval = 1 ∧
    (write_by_temporary_file
        ⟨fun q => if q = "ep.mp3" then some [1, 2, 3] else none, 0⟩
        ⟨["AbC123"], none, none, false, none⟩ (some "ep.mp3") ⟨[9, 9], 1, none⟩).sys.files
          "ep.mp3" = some [1, 2, 3] ∧
    (write_by_temporary_file
        ⟨fun q => if q = "ep.mp3" then some [1, 2, 3] else none, 0⟩
        ⟨["AbC123"], none, none, false, none⟩ (some "ep.mp3") ⟨[9, 9], 1, none⟩).sys.files
          "ep.mp3.AbC123" = some [9, 9] ∧
    (write_by_temporary_file
        ⟨fun q => if q = "ep.mp3" then some [1, 2, 3] else none, 0⟩
        ⟨["AbC123"], none, none, false, none⟩ (some "ep.mp3")
        ⟨[9, 9], 1, none⟩).used_filename = some "ep.mp3.AbC123" := by
  decide

/-- Whatever the system calls do, a writer that
returns non-zero leaves the content at the target path as it was (or still absent). -/
theorem writer_failure_keeps_target (s : Sys) (env : Env) (fn : String) (w : Writer)
    (hw : w.retval ≠ 0) :
    (write_by_temporary_file s env (some fn) w).sys.files fn = s.files fn := by
  unfold write_by_temporary_file
  cases hop : open_temporary s env (some fn) with
  | error s1 => simp only [open_temporary_error_files hop]
  | ok p =>
    obtain ⟨tmp, s1⟩ := p
    obtain ⟨hne, hfiles, -⟩ := open_temporary_files hop
    simp only
    cases env.fdopen_errno with
    | some e => simpa using hfiles
    | none =>
      simp only [if_neg hw]
      split
      · simp [unlink, after_close_files, hne.symm, hfiles]
      · simp [after_close_files, hne.symm, hfiles]

/-- The success path. For every target path and every writer that returns 0: when `g_mkstemp` creates
the temporary file (under the name with replacement `x`), `fdopen` and `g_rename`
succeed, the close does not hit a full device and `errno` is not `ENOSPC` after the
writer ran, the call returns 0, the target holds exactly the bytes written, the string
stored through `used_filename` is the target path, and no file is left under the temporary
name. -/
theorem write_success_publishes (s : Sys) (env : Env) (fn x : String) (w : Writer)
    (hw : w.retval = 0)
    (htmp : env.mkstemp_names.find? (fun x => (s.files (tmp_name fn x)).isNone) = some x)
    (hfd : env.fdopen_errno = none)
    (hclose : env.close_enospc = false)
    (herrno : w.errno.getD s.errno ≠ ENOSPC)
    (hrn : env.rename_errno = none) :
    (write_by_temporary_file s env (some fn) w).retval = 0 ∧
      (write_by_temporary_file s env (some fn) w).sys.files fn = some w.written ∧
      (write_by_temporary_file s env (some fn) w).used_filename = some fn ∧
      (write_by_temporary_file s env (some fn) w).sys.files (tmp_name fn x) = none := by
  have hchk : ¬ (after_close (s.store (tmp_name fn x) []) env (tmp_name fn x) w).errno
      = ENOSPC := by
    rw [after_close_errno, hclose]
    simpa [Sys.store] using herrno
  have hne := tmp_name_ne fn x
  simp only [write_by_temporary_file, open_temporary_ok htmp, hfd, if_neg hchk, hw, if_true,
    hrn]
  refine ⟨trivial, ?_, trivial, ?_⟩
  · simp [g_rename, after_close_files]
  · simp [g_rename, hne]

/-- The success path at the target `feed.xml` with old content, a writer of three bytes
and a quiet system. -/
theorem write_success_publishes_witness :
    (write_by_temporary_file ⟨fun q => if q = "feed.xml" then some [7] else none, 0⟩
        ⟨["q1w2e3"], none, none, false, none⟩ (some "feed.xml") ⟨[1, 2, 3], 0, none⟩).retval
        = 0 ∧
      (write_by_temporary_file ⟨fun q => if q = "feed.xml" then some [7] else none, 0⟩
        ⟨["q1w2e3"], none, none, false, none⟩ (some "feed.xml")
        ⟨[1, 2, 3], 0, none⟩).sys.files "feed.xml" = some [1, 2, 3] ∧
      (write_by_temporary_file ⟨fun q => if q = "feed.xml" then some [7] else none, 0⟩
        ⟨["q1w2e3"], none, none, false, none⟩ (some "feed.xml")
        ⟨[1, 2, 3], 0, none⟩).used_filename = some "feed.xml" ∧
      (write_by_temporary_file ⟨fun q => if q = "feed.xml" then some [7] else none, 0⟩
        ⟨["q1w2e3"], none, none, false, none⟩ (some "feed.xml")
        ⟨[1, 2, 3], 0, none⟩).sys.files (tmp_name "feed.xml" "q1w2e3") = none :=
  write_success_publishes ⟨fun q => if q = "feed.xml" then some [7] else none, 0⟩
    ⟨["q1w2e3"], none, none, false, none⟩ "feed.xml" "q1w2e3" ⟨[1, 2, 3], 0, none⟩
    rfl (by decide) rfl rfl (by decide) rfl

/-- C6 at a stale `errno`. A first call, for another file, whose close hits a full device
leaves `errno` at `ENOSPC`. In the second call the writer returns 0, the temporary file is
created, the close and the rename would succeed and nothing reports a full device; yet the
call returns -1, the target `feed.xml` keeps its old content instead of the bytes written,
nothing is stored through `used_filename`, and the out-of-space message is printed. -/
theorem stale_errno_blocks_publish :
    (write_by_temporary_file
        (write_by_temporary_file ⟨fun q => if q = "feed.xml" then some [7] else none, 0⟩
          ⟨["aaaaaa"], none, none, true, none⟩ (some "other.xml") ⟨[1], 0, none⟩).sys
        ⟨["q1w2e3"], none, none, false, none⟩ (some "feed.xml") ⟨[1, 2, 3], 0, none⟩).retval
        = -1 ∧
    (write_by_temporary_file
        (write_by_temporary_file ⟨fun q => if q = "feed.xml" then some [7] else none, 0⟩
          ⟨["aaaaaa"], none, none, true, none⟩ (some "other.xml") ⟨[1], 0, none⟩).sys
        ⟨["q1w2e3"], none, none, false, none⟩ (some "feed.xml")
        ⟨[1, 2, 3], 0, none⟩).sys.files "feed.xml" = some [7] ∧
    (write_by_temporary_file
        (write_by_temporary_file ⟨fun q => if q = "feed.xml" then some [7] else none, 0⟩
          ⟨["aaaaaa"], none, none, true, none⟩ (some "other.xml") ⟨[1], 0, none⟩).sys
        ⟨["q1w2e3"], none, none, false, none⟩ (some "feed.xml")
        ⟨[1, 2, 3], 0, none⟩).used_filename = none ∧
    (write_by_temporary_file
        (write_by_temporary_file ⟨fun q => if q = "feed.xml" then some [7] else none, 0⟩
          ⟨["aaaaaa"], none, none, true, none⟩ (some "other.xml") ⟨[1], 0, none⟩).sys
        ⟨["q1w2e3"], none, none, false, none⟩ (some "feed.xml")
        ⟨[1, 2, 3], 0, none⟩).stderr = [msg_no_space] := by
  decide

/-- C7 at a stale `errno`. A first call whose close hits a full device fails and leaves
`errno` at `ENOSPC`; a second call, in which neither the writer nor the close reports
anything, still prints the out-of-space message, returns -1 and leaves no file at its
target. -/
theorem stale_errno_takes_out_of_space_path :
    (write_by_temporary_file ⟨fun _ => none, 0⟩ ⟨["aaaaaa"], none, none, true, none⟩
        (some "a.xml") ⟨[1], 0, none⟩).sys.errno = ENOSPC ∧
    (write_by_temporary_file
        (write_by_temporary_file ⟨fun _ => none, 0⟩ ⟨["aaaaaa"], none, none, true, none⟩
          (some "a.xml") ⟨[1], 0, none⟩).sys
        ⟨["bbbbbb"], none, none, false, none⟩ (some "b.xml") ⟨[2], 0, none⟩).retval = -1 ∧
    (write_by_temporary_file
        (write_by_temporary_file ⟨fun _ => none, 0⟩ ⟨["aaaaaa"], none, none, true, none⟩
          (some "a.xml") ⟨[1], 0, none⟩).sys
        ⟨["bbbbbb"], none, none, false, none⟩ (some "b.xml") ⟨[2], 0, none⟩).stderr
        = [msg_no_space] ∧
    (write_by_temporary_file
        (write_by_temporary_file ⟨fun _ => none, 0⟩ ⟨["aaaaaa"], none, none, true, none⟩
          (some "a.xml") ⟨[1], 0, none⟩).sys
        ⟨["bbbbbb"], none, none, false, none⟩ (some "b.xml") ⟨[2], 0, none⟩).sys.files
        "b.xml" = none := by
  decide

/-- The out-of-space path. Once the temporary file and its stream are open,
the out-of-space path is taken exactly when `errno` is `ENOSPC` after the close; the call
then returns -1, the temporary file is deleted and the target is as before. When `errno`
is not `ENOSPC` on entry, that is exactly when the writer or the close reported it. -/
theorem out_of_space_path (s : Sys) (env : Env) (fn x : String) (w : Writer)
    (htmp : env.mkstemp_names.find? (fun x => (s.files (tmp_name fn x)).isNone) = some x)
    (hfd : env.fdopen_errno = none) :
    ((write_by_temporary_file s env (some fn) w).stderr = [msg_no_space] ↔
        (env.close_enospc = true ∨ w.errno.getD s.errno = ENOSPC)) ∧
    ((write_by_temporary_file s env (some fn) w).stderr = [msg_no_space] →
        (write_by_temporary_file s env (some fn) w).retval = -1 ∧
        (write_by_temporary_file s env (some fn) w).sys.files (tmp_name fn x) = none ∧
        (write_by_temporary_file s env (some fn) w).sys.files fn = s.files fn) ∧
    (s.errno ≠ ENOSPC →
      ((write_by_temporary_file s env (some fn) w).stderr = [msg_no_space] ↔
        (env.close_enospc = true ∨ w.errno = some ENOSPC))) := by
  have hne := tmp_name_ne fn x
  have hiff : (write_by_temporary_file s env (some fn) w).stderr = [msg_no_space] ↔
      (env.close_enospc = true ∨ w.errno.getD s.errno = ENOSPC) := by
    simp only [write_by_temporary_file, open_temporary_ok htmp, hfd]
    rw [after_close_errno]
    cases hc : env.close_enospc
    · simp only [Bool.false_eq_true, if_false, false_or, Sys.store]
      by_cases he : w.errno.getD s.errno = ENOSPC
      · simp [he]
      · simp only [he, if_false, iff_false]
        split
        · split <;> simp [msg_no_space]
        · simp [msg_no_space]
    · simp
  refine ⟨hiff, ?_, ?_⟩
  · intro h
    have hcond := hiff.mp h
    have hchk : (after_close (s.store (tmp_name fn x) []) env (tmp_name fn x) w).errno
        = ENOSPC := by
      rw [after_close_errno]
      rcases hcond with hc | hc
      · simp [hc]
      · split
        · rfl
        · simpa [Sys.store] using hc
    simp only [write_by_temporary_file, open_temporary_ok htmp, hfd, if_pos hchk]
    refine ⟨trivial, ?_, ?_⟩
    · simp [unlink]
    · simp [unlink, after_close_files, hne.symm, Sys.store]
  · intro h0
    rw [hiff]
    cases he : w.errno with
    | none => simp [h0]
    | some e => simp

/-! ## Theorems, part 3: tag reconciliation -/

theorem find_erase {tag : ID3Tag} {id : ID3_FrameID} {frame : ID3Frame}
    (h : ID3Tag_FindFrameWithID tag id = some frame) :
    (ID3Tag_RemoveFrame tag frame).filter (fun f => f.id != id)
        = tag.filter (fun f => f.id != id) ∧
      (ID3Tag_RemoveFrame tag frame).length + 1 = tag.length := by
  induction tag with
  | nil => simp [ID3Tag_FindFrameWithID] at h
  | cons a t ih =>
    unfold ID3Tag_FindFrameWithID at h ih
    unfold ID3Tag_RemoveFrame at ih ⊢
    by_cases ha : a.id = id
    · have h2 : a = frame := by simpa [List.find?_cons, ha] using h
      subst h2
      simp [ha]
    · have h2 : t.find? (fun f => f.id == id) = some frame := by
        simpa [List.find?_cons, ha] using h
      have hf : frame.id = id := by
        have := List.find?_some h2
        simpa using this
      have hne : a ≠ frame := by
        intro hc; rw [hc] at ha; exact ha hf
      obtain ⟨ih1, ih2⟩ := ih h2
      have he : (a :: t).erase frame = a :: t.erase frame := by
        rw [List.erase_cons_tail]
        simpa using hne
      rw [he]
      simp [ha, ih1, ih2]

theorem find_none_filter {tag : ID3Tag} {id : ID3_FrameID}
    (h : ID3Tag_FindFrameWithID tag id = none) : tag.filter (fun f => f.id != id) = tag := by
  unfold ID3Tag_FindFrameWithID at h
  rw [List.find?_eq_none] at h
  rw [List.filter_eq_self]
  intro a ha
  have := h a ha
  simpa using this

theorem remove_frames_loop_eq (id : ID3_FrameID) :
    ∀ (fuel : Nat) (tag : ID3Tag), tag.length ≤ fuel →
      remove_frames_loop fuel tag id = tag.filter (fun f => f.id != id) := by
  intro fuel
  induction fuel with
  | zero =>
    intro tag h
    have : tag = [] := List.length_eq_zero.mp (Nat.le_zero.mp h)
    subst this
    rfl
  | succ n ih =>
    intro tag h
    unfold remove_frames_loop
    cases hf : ID3Tag_FindFrameWithID tag id with
    | none => exact (find_none_filter hf).symm
    | some frame =>
      obtain ⟨h1, h2⟩ := find_erase hf
      simp only
      rw [ih _ (by omega), h1]

/-- The loop of lines 529-530 ends with every frame of the kind removed and the other
frames kept in order. -/
theorem remove_frames_eq (tag : ID3Tag) (id : ID3_FrameID) :
    remove_frames tag id = tag.filter (fun f => f.id != id) :=
  remove_frames_loop_eq id tag.length tag (Nat.le_refl _)

theorem set_if_given_tag (env : Id3Env) (st : ID3Tag × Int) (p : ID3_FrameID × Option String) :
    (set_if_given env st p.1 p.2).1
      = (if p.2.isSome then st.1.filter (fun f => f.id != p.1) else st.1) ++ new_frames env p := by
  obtain ⟨k, o⟩ := p
  cases o with
  | none => simp [set_if_given, new_frames]
  | some v =>
    simp only [set_if_given, _id3_find_and_set_frame, remove_frames_eq, new_frames,
      Option.isSome_some, if_true]
    by_cases hl : 0 < c_strlen v
    · by_cases ht : env.has_text k = true
      · simp [hl, ht]
      · simp [hl, ht]
    · simp [hl]

theorem set_if_given_errors (env : Id3Env) (st : ID3Tag × Int)
    (p : ID3_FrameID × Option String) :
    (set_if_given env st p.1 p.2).2 = st.2 + (if field_fails env p = true then 1 else 0) := by
  obtain ⟨k, o⟩ := p
  cases o with
  | none => simp [set_if_given, field_fails]
  | some v =>
    simp only [set_if_given, _id3_find_and_set_frame, field_fails]
    by_cases hl : 0 < c_strlen v
    · by_cases ht : env.has_text k = true
      · simp [hl, ht]
      · simp [hl, ht]
    · simp [hl]

theorem fold_errors (env : Id3Env) :
    ∀ (l : List (ID3_FrameID × Option String)) (st : ID3Tag × Int),
      (l.foldl (fun st p => set_if_given env st p.1 p.2) st).2
        = st.2 + (failed_fields env l : Int) := by
  intro l
  induction l with
  | nil => intro st; simp [failed_fields]
  | cons p l ih =>
    intro st
    rw [List.foldl_cons, ih, set_if_given_errors]
    unfold failed_fields
    by_cases hf : field_fails env p = true
    · simp [hf, List.filter_cons]; ring
    · simp [hf, List.filter_cons]

theorem new_frames_id (env : Id3Env) (p : ID3_FrameID × Option String) :
    ∀ f ∈ new_frames env p, f.id = p.1 ∧ p.2.isSome = true := by
  intro f hf
  obtain ⟨k, o⟩ := p
  cases o with
  | none => simp [new_frames] at hf
  | some v =>
    unfold new_frames at hf
    simp only at hf
    split at hf
    · simp only [List.mem_singleton] at hf
      subst hf
      exact ⟨rfl, rfl⟩
    · simp at hf

theorem mem_set_kinds {k : ID3_FrameID} :
    ∀ {l : List (ID3_FrameID × Option String)}, k ∈ set_kinds l → k ∈ l.map Prod.fst := by
  intro l
  induction l with
  | nil => intro h; simp [set_kinds] at h
  | cons p l ih =>
    obtain ⟨k2, o⟩ := p
    cases o with
    | none =>
      intro h
      simp only [set_kinds] at h
      simp [ih h]
    | some v =>
      intro h
      simp only [set_kinds, List.mem_cons] at h
      rcases h with h | h
      · simp [h]
      · simp [ih h]

theorem all_new_frames_id (env : Id3Env) :
    ∀ (l : List (ID3_FrameID × Option String)), ∀ f ∈ all_new_frames env l,
      f.id ∈ set_kinds l := by
  intro l
  induction l with
  | nil => intro f hf; simp [all_new_frames] at hf
  | cons p l ih =>
    intro f hf
    simp only [all_new_frames, List.mem_append] at hf
    obtain ⟨k, o⟩ := p
    rcases hf with hf | hf
    · obtain ⟨h1, h2⟩ := new_frames_id env (k, o) f hf
      cases o with
      | none => simp at h2
      | some v => simp only [set_kinds, List.mem_cons]; exact Or.inl h1
    · cases o with
      | none => simpa [set_kinds] using ih f hf
      | some v => simp only [set_kinds, List.mem_cons]; exact Or.inr (ih f hf)

/-- The tag after the blocks of `_id3_set` for a list of fields of distinct kinds: the
frames of the kinds that are not set, in their old order, then the new frames, in field
order. -/
theorem fold_tag (env : Id3Env) :
    ∀ (l : List (ID3_FrameID × Option String)) (st : ID3Tag × Int),
      (l.map Prod.fst).Nodup →
      (l.foldl (fun st p => set_if_given env st p.1 p.2) st).1
        = st.1.filter (fun f => decide (f.id ∉ set_kinds l)) ++ all_new_frames env l := by
  intro l
  induction l with
  | nil => intro st _; simp [set_kinds, all_new_frames]
  | cons p l ih =>
    intro st hnd
    rw [List.map_cons, List.nodup_cons] at hnd
    obtain ⟨hk, hnd2⟩ := hnd
    rw [List.foldl_cons, ih _ hnd2, set_if_given_tag]
    obtain ⟨k, o⟩ := p
    have hk2 : k ∉ set_kinds l := fun hc => hk (mem_set_kinds hc)
    cases o with
    | none => simp [set_kinds, all_new_frames, new_frames]
    | some v =>
      have hnf : (new_frames env (k, some v)).filter (fun f => decide (f.id ∉ set_kinds l))
          = new_frames env (k, some v) := by
        rw [List.filter_eq_self]
        intro f hf
        have := (new_frames_id env (k, some v) f hf).1
        simp only at this
        simp [this, hk2]
      simp only [Option.isSome_some, if_true, List.filter_append, hnf, set_kinds,
        all_new_frames, List.filter_filter, List.append_assoc]
      congr 1
      apply List.filter_congr
      intro f _
      simp only [List.mem_cons, not_or]
      by_cases h1 : f.id = k <;> by_cases h2 : f.id ∈ set_kinds l <;> simp [h1, h2]

theorem override_fields_nodup (a b c d e f g : Option String) :
    ((override_fields a b c d e f g).map Prod.fst).Nodup := by
  simp [override_fields]

theorem id3_set_fold (env : Id3Env) (file : TagFile) (clear : Bool)
    (a b c d e f g : Option String) (hnew : env.tag_new_ok = true) :
    _id3_set env file clear a b c d e f g
      = if ((override_fields a b c d e f g).foldl (fun st p => set_if_given env st p.1 p.2)
            (if clear = true then [] else file.tag, 0)).2 = 0
        then ⟨((override_fields a b c d e f g).foldl (fun st p => set_if_given env st p.1 p.2)
            (if clear = true then [] else file.tag, 0)).2,
          ⟨((override_fields a b c d e f g).foldl
            (fun st p => set_if_given env st p.1 p.2)
            (if clear = true then [] else file.tag, 0)).1, file.updates + 1⟩,
          some ((override_fields a b c d e f g).foldl
            (fun st p => set_if_given env st p.1 p.2)
            (if clear = true then [] else file.tag, 0)).1⟩
        else ⟨((override_fields a b c d e f g).foldl (fun st p => set_if_given env st p.1 p.2)
            (if clear = true then [] else file.tag, 0)).2, file,
          some ((override_fields a b c d e f g).foldl
            (fun st p => set_if_given env st p.1 p.2)
            (if clear = true then [] else file.tag, 0)).1⟩ := by
  simp only [_id3_set, hnew, override_fields, List.foldl_cons, List.foldl_nil,
    Bool.not_true, Bool.false_eq_true, if_false]

theorem frames_of_all_new (env : Id3Env) :
    ∀ (l : List (ID3_FrameID × Option String)), (l.map Prod.fst).Nodup →
      ∀ p ∈ l, frames_of p.1 (all_new_frames env l) = new_frames env p := by
  intro l
  induction l with
  | nil => intro _ p hp; simp at hp
  | cons q l ih =>
    intro hnd p hp
    rw [List.map_cons, List.nodup_cons] at hnd
    obtain ⟨hq, hnd2⟩ := hnd
    simp only [all_new_frames, frames_of, List.filter_append]
    rcases List.mem_cons.mp hp with hpq | hpl
    · subst hpq
      have h1 : (new_frames env p).filter (fun f => f.id == p.1) = new_frames env p := by
        rw [List.filter_eq_self]
        intro f hf
        simpa using (new_frames_id env p f hf).1
      have h2 : (all_new_frames env l).filter (fun f => f.id == p.1) = [] := by
        rw [List.filter_eq_nil_iff]
        intro f hf
        have hm := mem_set_kinds (all_new_frames_id env l f hf)
        intro hc
        have : f.id = p.1 := by simpa using hc
        rw [this] at hm
        exact hq hm
      rw [h1, h2, List.append_nil]
    · have hne : q.1 ≠ p.1 := by
        intro hc
        apply hq
        rw [hc]
        exact List.mem_map_of_mem Prod.fst hpl
      have h1 : (new_frames env q).filter (fun f => f.id == p.1) = [] := by
        rw [List.filter_eq_nil_iff]
        intro f hf hc
        have h3 := (new_frames_id env q f hf).1
        have : f.id = p.1 := by simpa using hc
        exact hne (h3.symm.trans this)
      have := ih hnd2 p hpl
      unfold frames_of at this
      rw [h1, this, List.nil_append]

theorem set_kinds_iff {k : ID3_FrameID} :
    ∀ {l : List (ID3_FrameID × Option String)},
      k ∈ set_kinds l ↔ ∃ v, (k, some v) ∈ l := by
  intro l
  induction l with
  | nil => simp [set_kinds]
  | cons p l ih =>
    obtain ⟨k2, o⟩ := p
    cases o with
    | none =>
      simp only [set_kinds, ih, List.mem_cons, Prod.mk.injEq]
      constructor
      · rintro ⟨v, hv⟩; exact ⟨v, Or.inr hv⟩
      · rintro ⟨v, hv | hv⟩
        · cases hv.2
        · exact ⟨v, hv⟩
    | some w =>
      simp only [set_kinds, List.mem_cons, ih, Prod.mk.injEq]
      constructor
      · rintro (h | ⟨v, hv⟩)
        · exact ⟨w, Or.inl ⟨h, rfl⟩⟩
        · exact ⟨v, Or.inr hv⟩
      · rintro ⟨v, hv | hv⟩
        · exact Or.inl hv.1
        · exact Or.inr ⟨v, hv⟩

theorem mem_set_kinds_of_mem {l : List (ID3_FrameID × Option String)}
    (hnd : (l.map Prod.fst).Nodup) {p : ID3_FrameID × Option String} (hp : p ∈ l) :
    p.1 ∈ set_kinds l ↔ p.2.isSome = true := by
  rw [set_kinds_iff]
  constructor
  · rintro ⟨v, hv⟩
    have := List.inj_on_of_nodup_map hnd hp hv rfl
    rw [this]
    rfl
  · intro h
    obtain ⟨k, o⟩ := p
    cases o with
    | none => cases h
    | some v => exact ⟨v, hp⟩

/-- The frames of the kind of a field after the blocks of `_id3_set`: for a field that is
set, the frame it attaches; for an unset field, the frames that were there. -/
theorem frames_of_fold (env : Id3Env) (l : List (ID3_FrameID × Option String))
    (st : ID3Tag × Int) (hnd : (l.map Prod.fst).Nodup)
    (p : ID3_FrameID × Option String) (hp : p ∈ l) :
    frames_of p.1 (l.foldl (fun st p => set_if_given env st p.1 p.2) st).1
      = if p.2.isSome = true then new_frames env p else frames_of p.1 st.1 := by
  rw [fold_tag env l st hnd]
  have hN := frames_of_all_new env l hnd p hp
  have hS := mem_set_kinds_of_mem hnd hp
  unfold frames_of at hN ⊢
  rw [List.filter_append, hN, List.filter_filter]
  by_cases hs : p.2.isSome = true
  · rw [if_pos hs]
    have : st.1.filter (fun a => (a.id == p.1 && decide (a.id ∉ set_kinds l))) = [] := by
      rw [List.filter_eq_nil_iff]
      intro f _ hc
      simp only [Bool.and_eq_true, beq_iff_eq, decide_eq_true_eq] at hc
      exact hc.2 (hc.1 ▸ hS.mpr hs)
    rw [this, List.nil_append]
  · rw [if_neg hs]
    have hnf : new_frames env p = [] := by
      obtain ⟨k, o⟩ := p
      cases o with
      | none => rfl
      | some v => exact absurd rfl hs
    rw [hnf, List.append_nil]
    apply List.filter_congr
    intro f _
    by_cases h1 : f.id = p.1
    · have : p.1 ∉ set_kinds l := fun hc => hs (hS.mp hc)
      simp [h1, this]
    · simp [h1]

/-- Running the blocks of `_id3_set` again on their own result changes nothing. -/
theorem fold_tag_twice (env : Id3Env) (l : List (ID3_FrameID × Option String))
    (st : ID3Tag × Int) (e : Int) (hnd : (l.map Prod.fst).Nodup) :
    (l.foldl (fun st p => set_if_given env st p.1 p.2)
        ((l.foldl (fun st p => set_if_given env st p.1 p.2) st).1, e)).1
      = (l.foldl (fun st p => set_if_given env st p.1 p.2) st).1 := by
  rw [fold_tag env l _ hnd, fold_tag env l st hnd]
  simp only [List.filter_append, List.filter_filter, Bool.and_self]
  have : (all_new_frames env l).filter (fun f => decide (f.id ∉ set_kinds l)) = [] := by
    rw [List.filter_eq_nil_iff]
    intro f hf
    simp [all_new_frames_id env l f hf]
  rw [this, List.append_nil]

theorem no_failure_new_frames {env : Id3Env} {l : List (ID3_FrameID × Option String)}
    (hok : failed_fields env l = 0) {k : ID3_FrameID} {v : String} (hp : (k, some v) ∈ l) :
    new_frames env (k, some v) = if 0 < c_strlen v then [⟨k, some (c_string v)⟩] else [] := by
  have hnil : l.filter (field_fails env) = [] := List.length_eq_zero.mp hok
  rw [List.filter_eq_nil_iff] at hnil
  have hf := hnil _ hp
  simp only [field_fails, Bool.and_eq_true, decide_eq_true_eq, Bool.not_eq_true', not_and,
    Bool.not_eq_false] at hf
  unfold new_frames
  simp only
  by_cases hl : 0 < c_strlen v
  · simp [hl, hf hl]
  · simp [hl]

/-- The count, the tag object and the file that `_id3_set` leaves. -/
theorem id3_set_core (env : Id3Env) (file : TagFile) (clear : Bool)
    (a b c d e f g : Option String) (hnew : env.tag_new_ok = true) :
    (_id3_set env file clear a b c d e f g).errors
        = failed_fields env (override_fields a b c d e f g) ∧
      (∃ tag, (_id3_set env file clear a b c d e f g).tag = some tag ∧
        (∀ p ∈ override_fields a b c d e f g, p.2.isSome = true →
          frames_of p.1 tag = new_frames env p) ∧
        ((_id3_set env file clear a b c d e f g).errors = 0 →
          (_id3_set env file clear a b c d e f g).file = ⟨tag, file.updates + 1⟩)) ∧
      ((_id3_set env file clear a b c d e f g).file.updates = file.updates + 1 ↔
        (_id3_set env file clear a b c d e f g).errors = 0) ∧
      ((_id3_set env file clear a b c d e f g).errors ≠ 0 →
        (_id3_set env file clear a b c d e f g).file = file) := by
  have hnd := override_fields_nodup a b c d e f g
  have hE := fold_errors env (override_fields a b c d e f g)
    (if clear = true then [] else file.tag, 0)
  have hF := fun p hp => frames_of_fold env (override_fields a b c d e f g)
    (if clear = true then [] else file.tag, 0) hnd p hp
  rw [id3_set_fold env file clear a b c d e f g hnew]
  generalize (override_fields a b c d e f g).foldl (fun st p => set_if_given env st p.1 p.2)
    (if clear = true then [] else file.tag, 0) = st at hE hF
  simp only [zero_add] at hE
  by_cases h0 : st.2 = 0
  · simp only [if_pos h0]
    refine ⟨by rw [← hE, h0], ⟨st.1, rfl, ?_, fun _ => rfl⟩, by simp [h0], fun h => absurd h0 h⟩
    intro p hp hs
    rw [hF p hp, if_pos hs]
  · simp only [if_neg h0]
    refine ⟨hE, ⟨st.1, rfl, ?_, fun h => absurd h h0⟩, by simp [h0], fun _ => trivial⟩
    intro p hp hs
    rw [hF p hp, if_pos hs]

theorem check_and_set_eq (env : Id3Env) (file : TagFile) (cfg : channel_configuration)
    (hnew : env.tag_new_ok = true) :
    (_id3_check_and_set env file cfg).errors
        = ((id3_overrides cfg).foldl (fun st p => set_if_given env st p.1 p.2)
            (file.tag, 0)).2 ∧
      (_id3_check_and_set env file cfg).file.tag
        = (if ((id3_overrides cfg).foldl (fun st p => set_if_given env st p.1 p.2)
              (file.tag, 0)).2 = 0
           then ((id3_overrides cfg).foldl (fun st p => set_if_given env st p.1 p.2)
              (file.tag, 0)).1
           else file.tag) ∧
      ((∀ p ∈ id3_overrides cfg, p.2 = none) → (_id3_check_and_set env file cfg).file = file) := by
  unfold _id3_check_and_set
  split
  · rename_i hset
    rw [id3_set_fold env file false _ _ _ _ _ _ _ hnew]
    simp only [Bool.false_eq_true, if_false, id3_overrides]
    refine ⟨?_, ?_, ?_⟩
    · split <;> rfl
    · split <;> rfl
    · intro hall
      exfalso
      simp only [id3_overrides, override_fields, List.mem_cons, List.mem_singleton,
        List.not_mem_nil, or_false, forall_eq_or_imp, forall_eq] at hall
      obtain ⟨h1, h2, h3, h4, h5, h6, h7⟩ := hall
      simp [h1, h2, h3, h4, h5, h6, h7] at hset
  · rename_i hset
    simp only [Bool.or_eq_true, not_or, Bool.not_eq_true] at hset
    obtain ⟨⟨⟨⟨⟨⟨h1, h2⟩, h3⟩, h4⟩, h5⟩, h6⟩, h7⟩ := hset
    have e1 : cfg.id3_lead_artist = none := by cases h : cfg.id3_lead_artist <;> simp_all
    have e2 : cfg.id3_content_group = none := by cases h : cfg.id3_content_group <;> simp_all
    have e3 : cfg.id3_title = none := by cases h : cfg.id3_title <;> simp_all
    have e4 : cfg.id3_album = none := by cases h : cfg.id3_album <;> simp_all
    have e5 : cfg.id3_content_type = none := by cases h : cfg.id3_content_type <;> simp_all
    have e6 : cfg.id3_year = none := by cases h : cfg.id3_year <;> simp_all
    have e7 : cfg.id3_comment = none := by cases h : cfg.id3_comment <;> simp_all
    simp [id3_overrides, override_fields, e1, e2, e3, e4, e5, e6, e7, set_if_given]

theorem check_and_set_of_set (env : Id3Env) (file : TagFile) (cfg : channel_configuration)
    (hset : ∃ p ∈ id3_overrides cfg, p.2.isSome = true) :
    _id3_check_and_set env file cfg
      = _id3_set env file false cfg.id3_lead_artist cfg.id3_content_group cfg.id3_title
          cfg.id3_album cfg.id3_content_type cfg.id3_year cfg.id3_comment := by
  obtain ⟨p, hp, hs⟩ := hset
  simp only [id3_overrides, override_fields, List.mem_cons, List.mem_singleton,
    List.not_mem_nil, or_false] at hp
  have hc : (cfg.id3_lead_artist.isSome || cfg.id3_content_group.isSome ||
      cfg.id3_title.isSome || cfg.id3_album.isSome || cfg.id3_content_type.isSome ||
      cfg.id3_year.isSome || cfg.id3_comment.isSome) = true := by
    rcases hp with rfl | rfl | rfl | rfl | rfl | rfl | rfl <;> simp only at hs <;> simp [hs]
  unfold _id3_check_and_set
  rw [if_pos hc]

theorem check_and_set_written (env : Id3Env) (file : TagFile) (cfg : channel_configuration)
    (hnew : env.tag_new_ok = true) (h0 : (_id3_check_and_set env file cfg).errors = 0) :
    (∀ p ∈ id3_overrides cfg, p.2.isSome = true →
        frames_of p.1 (_id3_check_and_set env file cfg).file.tag = new_frames env p) ∧
      (∀ tag, (_id3_set env file false cfg.id3_lead_artist cfg.id3_content_group cfg.id3_title
          cfg.id3_album cfg.id3_content_type cfg.id3_year cfg.id3_comment).tag = some tag →
        (_id3_check_and_set env file cfg).file.tag = tag) := by
  have hnd : ((id3_overrides cfg).map Prod.fst).Nodup := override_fields_nodup _ _ _ _ _ _ _
  obtain ⟨h1, h2, -⟩ := check_and_set_eq env file cfg hnew
  rw [h1] at h0
  rw [if_pos h0] at h2
  constructor
  · intro p hp hs
    rw [h2, frames_of_fold env _ _ hnd p hp, if_pos hs]
  · intro tag ht
    rw [id3_set_fold env file false _ _ _ _ _ _ _ hnew] at ht
    simp only [Bool.false_eq_true, if_false] at ht
    have h0b : ((override_fields cfg.id3_lead_artist cfg.id3_content_group cfg.id3_title
        cfg.id3_album cfg.id3_content_type cfg.id3_year cfg.id3_comment).foldl
        (fun st p => set_if_given env st p.1 p.2) (file.tag, 0)).2 = 0 := h0
    rw [if_pos h0b] at ht
    rw [h2]
    exact Option.some.inj ht

/-- C8. When `ID3Tag_New` gives a tag object, for every file, every `clear` and every set of
overrides: the count `_id3_set` returns is the number of set override fields whose frame
could not be given its value; every set field is handled whatever failed before it (in
the tag object, the frames of its kind are just the frame it attaches); the file is
written, with that tag, exactly when the count is zero, and is as before otherwise. The
count of `_id3_check_and_set` is the same number for the overrides of the configuration;
when it is not zero the file is as before; when it is zero the tag in the file is the
tag object that `_id3_set` built, holding for every set field just the frame it
attaches; and with an override set, `_id3_check_and_set` does what `_id3_set` does and
writes the file exactly when the count is zero. -/
theorem id3_set_all_or_nothing (env : Id3Env) (file : TagFile) (clear : Bool)
    (a b c d e f g : Option String) (hnew : env.tag_new_ok = true) :
    (_id3_set env file clear a b c d e f g).errors
        = failed_fields env (override_fields a b c d e f g) ∧
      (∃ tag, (_id3_set env file clear a b c d e f g).tag = some tag ∧
        (∀ p ∈ override_fields a b c d e f g, p.2.isSome = true →
          frames_of p.1 tag = new_frames env p) ∧
        ((_id3_set env file clear a b c d e f g).errors = 0 →
          (_id3_set env file clear a b c d e f g).file = ⟨tag, file.updates + 1⟩)) ∧
      ((_id3_set env file clear a b c d e f g).file.updates = file.updates + 1 ↔
        (_id3_set env file clear a b c d e f g).errors = 0) ∧
      ((_id3_set env file clear a b c d e f g).errors ≠ 0 →
        (_id3_set env file clear a b c d e f g).file = file) ∧
      (∀ cfg : channel_configuration,
        (_id3_check_and_set env file cfg).errors = failed_fields env (id3_overrides cfg) ∧
        ((_id3_check_and_set env file cfg).errors ≠ 0 →
          (_id3_check_and_set env file cfg).file = file) ∧
        ((_id3_check_and_set env file cfg).errors = 0 →
          (∀ p ∈ id3_overrides cfg, p.2.isSome = true →
            frames_of p.1 (_id3_check_and_set env file cfg).file.tag = new_frames env p) ∧
          (∀ tag, (_id3_set env file false cfg.id3_lead_artist cfg.id3_content_group
              cfg.id3_title cfg.id3_album cfg.id3_content_type cfg.id3_year
              cfg.id3_comment).tag = some tag →
            (_id3_check_and_set env file cfg).file.tag = tag)) ∧
        ((∃ p ∈ id3_overrides cfg, p.2.isSome = true) →
          _id3_check_and_set env file cfg
            = _id3_set env file false cfg.id3_lead_artist cfg.id3_content_group cfg.id3_title
                cfg.id3_album cfg.id3_content_type cfg.id3_year cfg.id3_comment ∧
          ((_id3_check_and_set env file cfg).file.updates = file.updates + 1 ↔
            (_id3_check_and_set env file cfg).errors = 0))) := by
  obtain ⟨h1, h2, h3, h4⟩ := id3_set_core env file clear a b c d e f g hnew
  refine ⟨h1, h2, h3, h4, ?_⟩
  intro cfg
  refine ⟨?_, ?_, fun h0 => check_and_set_written env file cfg hnew h0, ?_⟩
  · rw [(check_and_set_eq env file cfg hnew).1, fold_errors]
    simp
  · unfold _id3_check_and_set
    split
    · exact (id3_set_core env file false _ _ _ _ _ _ _ hnew).2.2.2
    · intro _
      rfl
  · intro hset
    have he := check_and_set_of_set env file cfg hset
    refine ⟨he, ?_⟩
    rw [he]
    exact (id3_set_core env file false _ _ _ _ _ _ _ hnew).2.2.1

/-- C8 at four requested fields of which the title fails: the count is 1 and the file is
as before the call; and at a configuration that sets the title, with no failure:
`_id3_check_and_set` returns 0 and writes the file, the old title frame replaced. -/
theorem id3_set_all_or_nothing_witness :
    (_id3_set ⟨true, fun k => k != .ID3FID_TITLE⟩
        ⟨[⟨.ID3FID_TITLE, some "old"⟩, ⟨.other 7, none⟩], 0⟩ false
        (some "Artist") none (some "Title") (some "Album") none (some "2010") none).errors = 1 ∧
      (_id3_set ⟨true, fun k => k != .ID3FID_TITLE⟩
        ⟨[⟨.ID3FID_TITLE, some "old"⟩, ⟨.other 7, none⟩], 0⟩ false
        (some "Artist") none (some "Title") (some "Album") none (some "2010") none).file
        = ⟨[⟨.ID3FID_TITLE, some "old"⟩, ⟨.other 7, none⟩], 0⟩ ∧
      _id3_check_and_set ⟨true, fun _ => true⟩
        ⟨[⟨.ID3FID_TITLE, some "old"⟩, ⟨.other 7, none⟩], 0⟩
        ⟨"ch", some "http://example.org/feed", some "/spool", none, none, none,
          none, none, some "Title", none, none, none, none⟩
        = ⟨0, ⟨[⟨.other 7, none⟩, ⟨.ID3FID_TITLE, some "Title"⟩], 1⟩,
            some [⟨.other 7, none⟩, ⟨.ID3FID_TITLE, some "Title"⟩]⟩ := by
  have h := id3_set_all_or_nothing ⟨true, fun k => k != .ID3FID_TITLE⟩
    ⟨[⟨.ID3FID_TITLE, some "old"⟩, ⟨.other 7, none⟩], 0⟩ false
    (some "Artist") none (some "Title") (some "Album") none (some "2010") none rfl
  have h1 : failed_fields ⟨true, fun k => k != .ID3FID_TITLE⟩
      (override_fields (some "Artist") none (some "Title") (some "Album") none (some "2010")
        none) = 1 := by decide
  rw [h1] at h
  have k := (id3_set_all_or_nothing ⟨true, fun _ => true⟩
    ⟨[⟨.ID3FID_TITLE, some "old"⟩, ⟨.other 7, none⟩], 0⟩ false
    none none none none none none none rfl).2.2.2.2
    ⟨"ch", some "http://example.org/feed", some "/spool", none, none, none,
      none, none, some "Title", none, none, none, none⟩
  exact ⟨h.1, h.2.2.2.1 (by rw [h.1]; decide),
    (k.2.2.2 ⟨(.ID3FID_TITLE, some "Title"), by decide, rfl⟩).1.trans (by decide)⟩

/-- C9. When `ID3Tag_New` gives a tag object and no field fails, `_id3_check_and_set`
returns 0 and, for each of the seven kinds: if the override is set and not empty, the tag
in the file holds exactly one frame of the kind, carrying the override value; if it is
set and empty, no frame of the kind; if it is unset, the frames of the kind that were
there. With no override set the file is as before. A second call with the same overrides
returns 0 and leaves the tag as the first call left it. -/
theorem id3_check_and_set_postcondition (env : Id3Env) (file : TagFile)
    (cfg : channel_configuration) (hnew : env.tag_new_ok = true)
    (hok : failed_fields env (id3_overrides cfg) = 0) :
    (_id3_check_and_set env file cfg).errors = 0 ∧
      (∀ p ∈ id3_overrides cfg,
        frames_of p.1 (_id3_check_and_set env file cfg).file.tag
          = match p.2 with
            | some v => if 0 < c_strlen v then [⟨p.1, some (c_string v)⟩] else []
            | none => frames_of p.1 file.tag) ∧
      ((∀ p ∈ id3_overrides cfg, p.2 = none) →
        (_id3_check_and_set env file cfg).file = file) ∧
      (_id3_check_and_set env (_id3_check_and_set env file cfg).file cfg).errors = 0 ∧
      (_id3_check_and_set env (_id3_check_and_set env file cfg).file cfg).file.tag
        = (_id3_check_and_set env file cfg).file.tag := by
  have hnd : ((id3_overrides cfg).map Prod.fst).Nodup := override_fields_nodup _ _ _ _ _ _ _
  have hE : ∀ t : ID3Tag, ((id3_overrides cfg).foldl
      (fun st p => set_if_given env st p.1 p.2) (t, 0)).2 = 0 := by
    intro t
    rw [fold_errors, hok]
    rfl
  obtain ⟨h1, h2, h3⟩ := check_and_set_eq env file cfg hnew
  obtain ⟨k1, k2, -⟩ := check_and_set_eq env (_id3_check_and_set env file cfg).file cfg hnew
  rw [hE] at h1 k1
  rw [if_pos (hE _)] at h2 k2
  refine ⟨h1, ?_, h3, k1, ?_⟩
  · intro p hp
    rw [h2, frames_of_fold env _ _ hnd p hp]
    obtain ⟨k, o⟩ := p
    cases o with
    | none => rfl
    | some v => exact no_failure_new_frames hok hp
  · rw [k2, h2]
    exact fold_tag_twice env _ _ 0 hnd

/-- C9 at a file with an old title and a picture frame, and overrides for the lead artist
(set), the title (set) and the comment (set, empty). -/
theorem id3_check_and_set_postcondition_witness :
    (_id3_check_and_set ⟨true, fun _ => true⟩
        ⟨[⟨.ID3FID_TITLE, some "old"⟩, ⟨.other 7, none⟩, ⟨.ID3FID_COMMENT, some "x"⟩], 0⟩
        ⟨"ch", some "http://example.org/feed", some "/spool", none, none, none,
          some "Artist", none, some "Title", none, none, none, some ""⟩).errors = 0 ∧
      (_id3_check_and_set ⟨true, fun _ => true⟩
        ⟨[⟨.ID3FID_TITLE, some "old"⟩, ⟨.other 7, none⟩, ⟨.ID3FID_COMMENT, some "x"⟩], 0⟩
        ⟨"ch", some "http://example.org/feed", some "/spool", none, none, none,
          some "Artist", none, some "Title", none, none, none, some ""⟩).file
        = ⟨[⟨.other 7, none⟩, ⟨.ID3FID_LEADARTIST, some "Artist"⟩,
            ⟨.ID3FID_TITLE, some "Title"⟩], 1⟩ :=
  ⟨(id3_check_and_set_postcondition ⟨true, fun _ => true⟩
      ⟨[⟨.ID3FID_TITLE, some "old"⟩, ⟨.other 7, none⟩, ⟨.ID3FID_COMMENT, some "x"⟩], 0⟩
      ⟨"ch", some "http://example.org/feed", some "/spool", none, none, none,
        some "Artist", none, some "Title", none, none, none, some ""⟩ rfl (by decide)).1,
    by decide⟩

/-! ## Theorems, part 4: `_process_channel` -/

theorem filters_handed_update_call (flags : Flags) (o : op) (c : channel)
    (cfg : channel_configuration) (filter : Option enclosure_filter) (l : List Event) :
    filters_handed (update_call flags o c cfg filter :: l) = filter :: filters_handed l ∧
      patterns_compiled (update_call flags o c cfg filter :: l) = patterns_compiled l := by
  cases o <;> exact ⟨rfl, rfl⟩

/-- The filter handed to the feed engine by one call of `_process_channel`, and the
patterns it compiles. -/
theorem process_channel_filter (env : ProcEnv) (flags : Flags)
    (channel_directory identifier : String) (o : op)
    (defaults : Option channel_configuration) (filter : Option enclosure_filter) :
    filters_handed (_process_channel env flags channel_directory identifier o defaults
        filter).2
      = (if reaches_update env flags channel_directory identifier defaults = true
         then [select_filter env filter (env.configuration_new identifier defaults)]
         else []) ∧
    patterns_compiled (_process_channel env flags channel_directory identifier o defaults
        filter).2
      = (if reaches_update env flags channel_directory identifier defaults = true
            ∧ filter = none
         then (env.configuration_new identifier defaults).regex_filter.toList
         else []) := by
  unfold _process_channel reaches_update
  by_cases hg : g_key_file_has_group env identifier = true
  swap
  · simp [hg, filters_handed, patterns_compiled]
  by_cases hv : env.verify_keys identifier < 0
  · simp [hg, hv, filters_handed, patterns_compiled]
  simp only [hg, hv, Bool.not_true, Bool.false_eq_true, if_false, Bool.true_and,
    decide_False, Bool.not_false]
  cases hu : (env.configuration_new identifier defaults).url with
  | none => simp [filters_handed, patterns_compiled]
  | some url =>
    cases hs : (env.configuration_new identifier defaults).spool_directory with
    | none => simp [filters_handed, patterns_compiled]
    | some spool =>
      simp only
      by_cases hn : flags.new ≠ 0 ∧
          env.access (channel_file_name channel_directory identifier) = 0
      · simp [hn, filters_handed, patterns_compiled]
      · simp only [hn, if_false, decide_False, Bool.not_false, Bool.true_and]
        cases hc : env.channel_new_ok ⟨url, channel_file_name channel_directory identifier,
            spool, (env.configuration_new identifier defaults).user_filename_spec,
            flags.resume⟩ with
        | false => simp [filters_handed, patterns_compiled]
        | true =>
          simp only [Bool.not_true, Bool.false_eq_true, if_false, if_true, true_and]
          cases filter with
          | some f =>
            simp only [select_filter]
            cases hr : (env.configuration_new identifier defaults).regex_filter <;>
              simp [filters_handed, patterns_compiled, filters_handed_update_call]
          | none =>
            cases hr : (env.configuration_new identifier defaults).regex_filter with
            | none =>
              simp [select_filter, hr, filters_handed, patterns_compiled,
                filters_handed_update_call]
            | some re =>
              cases hf : env.enclosure_filter_new re false <;>
                simp [select_filter, hr, hf, filters_handed, patterns_compiled,
                  filters_handed_update_call]

/-- C10. For every command-line filter and every channel configuration, whenever
`_process_channel` gets to call `channel_update` the filter it hands over is the
command-line filter if one was given, otherwise what `enclosure_filter_new` returns for
the channel's `regex_filter` if that is set, otherwise none; and `regex_filter` is
compiled only when there is no command-line filter. In the channel loop of `main` every
call gets the filter so selected from the command-line filter and its own configuration:
with no command-line filter, a channel without `regex_filter` hands the engine no filter,
whatever the channels before it had. -/
theorem filter_selection (env : ProcEnv) (flags : Flags) (channel_directory : String)
    (o : op) (filter : Option enclosure_filter) :
    (∀ (identifier : String) (defaults : Option channel_configuration),
      filters_handed (_process_channel env flags channel_directory identifier o defaults
          filter).2
        = (if reaches_update env flags channel_directory identifier defaults = true
           then [select_filter env filter (env.configuration_new identifier defaults)]
           else []) ∧
      patterns_compiled (_process_channel env flags channel_directory identifier o defaults
          filter).2
        = (if reaches_update env flags channel_directory identifier defaults = true
              ∧ filter = none
           then (env.configuration_new identifier defaults).regex_filter.toList
           else [])) ∧
    (∀ (identifiers : List String),
      ∀ e ∈ (main_channels env flags channel_directory o filter identifiers).2,
        filters_handed e.2.2
          = (if reaches_update env flags channel_directory e.1 (main_defaults env) = true
             then [select_filter env filter (env.configuration_new e.1 (main_defaults env))]
             else []) ∧
        (filter = none →
          (env.configuration_new e.1 (main_defaults env)).regex_filter = none →
          ∀ f ∈ filters_handed e.2.2, f = none)) := by
  refine ⟨fun identifier defaults =>
    process_channel_filter env flags channel_directory identifier o defaults filter, ?_⟩
  intro identifiers e he
  have hmem : e.2 = _process_channel env flags channel_directory e.1 o (main_defaults env)
      filter := by
    unfold main_channels at he
    split at he
    · simp at he
    · simp only at he
      split at he
      · obtain ⟨id, -, rfl⟩ := List.mem_map.mp he
        rfl
      · obtain ⟨id, -, rfl⟩ := List.mem_map.mp he
        rfl
  have hsel := (process_channel_filter env flags channel_directory e.1 o (main_defaults env)
    filter).1
  rw [← hmem] at hsel
  refine ⟨hsel, ?_⟩
  intro hnone hre f hf
  rw [hsel] at hf
  split at hf
  · simp only [List.mem_singleton] at hf
    rw [hf, hnone]
    simp [select_filter, hre]
  · simp at hf

/-- C10 at a configuration with the channels `a`, whose `regex_filter` is `mp3`, and `b`,
which has none, and no command-line filter: the call for `b` hands the engine no
filter. -/
theorem filter_selection_witness :
    filters_handed (_process_channel
        ⟨["*", "a", "b"], fun _ => 0,
          fun id _ => ⟨id, some "http://example.org/feed", some "/spool", none, none,
            if id = "a" then some "mp3" else none, none, none, none, none, none, none, none⟩,
          fun _ => -1, fun _ => true, fun p c => some ⟨p, c⟩⟩
        ⟨0, 0, 0⟩ "/home/u/.castget" "b" .OP_UPDATE none none).2 = [none] ∧
    (main_channels
        ⟨["*", "a", "b"], fun _ => 0,
          fun id _ => ⟨id, some "http://example.org/feed", some "/spool", none, none,
            if id = "a" then some "mp3" else none, none, none, none, none, none, none, none⟩,
          fun _ => -1, fun _ => true, fun p c => some ⟨p, c⟩⟩
        ⟨0, 0, 0⟩ "/home/u/.castget" .OP_UPDATE none []).2.map
          (fun e => (e.1, filters_handed e.2.2))
      = [("a", [some ⟨"mp3", false⟩]), ("b", [none])] :=
  ⟨(((filter_selection
        ⟨["*", "a", "b"], fun _ => 0,
          fun id _ => ⟨id, some "http://example.org/feed", some "/spool", none, none,
            if id = "a" then some "mp3" else none, none, none, none, none, none, none, none⟩,
          fun _ => -1, fun _ => true, fun p c => some ⟨p, c⟩⟩
        ⟨0, 0, 0⟩ "/home/u/.castget" .OP_UPDATE none).1 "b" none).1).trans (by decide),
    by decide⟩

theorem no_url_ne_no_spool (identifier : String) :
    "No feed URL set for channel " ++ identifier ++ "."
      ≠ "No spool directory set for channel " ++ identifier ++ "." := by
  intro h
  have h2 := congrArg String.data h
  simp only [String.data_append] at h2
  have h3 := congrArg (fun l => l.get? 3) h2
  revert h3
  simp [String.data]

/-- C11, as the code has it: a merged configuration whose feed URL is the empty string
(and likewise one whose spool directory is the empty string) passes the check of lines
424-437: `channel_new` and `channel_update` are called and the return value is 0. -/
theorem empty_url_passes_mandatory_check :
    (_process_channel
        ⟨["a"], fun _ => 0,
          fun id _ => ⟨id, some "", some "/spool", none, none, none, none, none, none, none,
            none, none, none⟩,
          fun _ => -1, fun _ => true, fun p c => some ⟨p, c⟩⟩
        ⟨0, 0, 0⟩ "/home/u/.castget" "a" .OP_UPDATE none none).1 = 0 ∧
    (engine_calls (_process_channel
        ⟨["a"], fun _ => 0,
          fun id _ => ⟨id, some "", some "/spool", none, none, none, none, none, none, none,
            none, none, none⟩,
          fun _ => -1, fun _ => true, fun p c => some ⟨p, c⟩⟩
        ⟨0, 0, 0⟩ "/home/u/.castget" "a" .OP_UPDATE none none).2).length = 2 ∧
    (_process_channel
        ⟨["a"], fun _ => 0,
          fun id _ => ⟨id, some "http://example.org/feed", some "", none, none, none, none,
            none, none, none, none, none, none⟩,
          fun _ => -1, fun _ => true, fun p c => some ⟨p, c⟩⟩
        ⟨0, 0, 0⟩ "/home/u/.castget" "a" .OP_UPDATE none none).1 = 0 ∧
    (engine_calls (_process_channel
        ⟨["a"], fun _ => 0,
          fun id _ => ⟨id, some "http://example.org/feed", some "", none, none, none, none,
            none, none, none, none, none, none⟩,
          fun _ => -1, fun _ => true, fun p c => some ⟨p, c⟩⟩
        ⟨0, 0, 0⟩ "/home/u/.castget" "a" .OP_UPDATE none none).2).length = 2 := by
  decide

/-- C11, amended. For every merged channel configuration whose feed URL or spool directory
is absent (a NULL pointer; an empty string counts as set), `_process_channel` reports the
error and returns -1 without calling `channel_new` or `channel_update`. The missing-URL
error is reported in preference to the missing-spool-directory error, its message is
another one, and neither is the unknown-key error, on which `_process_channel` returns -1
before it merges the configuration, reporting nothing itself. -/
theorem mandatory_fields_checked (env : ProcEnv) (flags : Flags)
    (channel_directory identifier : String) (o : op)
    (defaults : Option channel_configuration) (filter : Option enclosure_filter) :
    (g_key_file_has_group env identifier = true → ¬ env.verify_keys identifier < 0 →
      (env.configuration_new identifier defaults).url = none →
      _process_channel env flags channel_directory identifier o defaults filter
        = (-1, [.stderr ("No feed URL set for channel " ++ identifier ++ "."),
                .channel_configuration_free (env.configuration_new identifier defaults)])) ∧
    (g_key_file_has_group env identifier = true → ¬ env.verify_keys identifier < 0 →
      (env.configuration_new identifier defaults).url ≠ none →
      (env.configuration_new identifier defaults).spool_directory = none →
      _process_channel env flags channel_directory identifier o defaults filter
        = (-1, [.stderr ("No spool directory set for channel " ++ identifier ++ "."),
                .channel_configuration_free (env.configuration_new identifier defaults)])) ∧
    (g_key_file_has_group env identifier = true → ¬ env.verify_keys identifier < 0 →
      ((env.configuration_new identifier defaults).url = none ∨
        (env.configuration_new identifier defaults).spool_directory = none) →
      (_process_channel env flags channel_directory identifier o defaults filter).1 = -1 ∧
      engine_calls
        (_process_channel env flags channel_directory identifier o defaults filter).2 = []) ∧
    ("No feed URL set for channel " ++ identifier ++ "."
      ≠ "No spool directory set for channel " ++ identifier ++ ".") ∧
    (g_key_file_has_group env identifier = true → env.verify_keys identifier < 0 →
      _process_channel env flags channel_directory identifier o defaults filter
        = (-1, [])) := by
  have hA : g_key_file_has_group env identifier = true → ¬ env.verify_keys identifier < 0 →
      (env.configuration_new identifier defaults).url = none →
      _process_channel env flags channel_directory identifier o defaults filter
        = (-1, [.stderr ("No feed URL set for channel " ++ identifier ++ "."),
                .channel_configuration_free (env.configuration_new identifier defaults)]) := by
    intro hg hv hu
    simp only [_process_channel, hg, hv, hu, Bool.not_true, Bool.false_eq_true, if_false]
  have hB : g_key_file_has_group env identifier = true → ¬ env.verify_keys identifier < 0 →
      (env.configuration_new identifier defaults).url ≠ none →
      (env.configuration_new identifier defaults).spool_directory = none →
      _process_channel env flags channel_directory identifier o defaults filter
        = (-1, [.stderr ("No spool directory set for channel " ++ identifier ++ "."),
                .channel_configuration_free (env.configuration_new identifier defaults)]) := by
    intro hg hv hu hs
    obtain ⟨url, hurl⟩ := Option.ne_none_iff_exists'.mp hu
    simp only [_process_channel, hg, hv, hurl, hs, Bool.not_true, Bool.false_eq_true, if_false]
  refine ⟨hA, hB, ?_, no_url_ne_no_spool identifier, ?_⟩
  · intro hg hv h
    by_cases hu : (env.configuration_new identifier defaults).url = none
    · rw [hA hg hv hu]
      exact ⟨rfl, rfl⟩
    · rcases h with h | h
      · exact absurd h hu
      · rw [hB hg hv hu h]
        exact ⟨rfl, rfl⟩
  · intro hg hv
    simp only [_process_channel, hg, hv, Bool.not_true, Bool.false_eq_true, if_false, if_true]

/-- C11 amended, at a section `a` that sets neither URL nor spool directory: the
missing-URL error is the one reported. -/
theorem mandatory_fields_checked_witness :
    _process_channel
        ⟨["a"], fun _ => 0,
          fun id _ => ⟨id, none, none, none, none, none, none, none, none, none, none, none,
            none⟩,
          fun _ => -1, fun _ => true, fun p c => some ⟨p, c⟩⟩
        ⟨0, 0, 1⟩ "/home/u/.castget" "a" .OP_UPDATE none none
      = (-1, [.stderr "No feed URL set for channel a.",
              .channel_configuration_free ⟨"a", none, none, none, none, none, none, none,
                none, none, none, none, none⟩]) :=
  (mandatory_fields_checked
    ⟨["a"], fun _ => 0,
      fun id _ => ⟨id, none, none, none, none, none, none, none, none, none, none, none,
        none⟩,
      fun _ => -1, fun _ => true, fun p c => some ⟨p, c⟩⟩
    ⟨0, 0, 1⟩ "/home/u/.castget" "a" .OP_UPDATE none none).1 (by decide) (by decide) rfl

theorem main_channels_default_failure {env : ProcEnv}
    (h : g_key_file_has_group env "*" = true ∧ env.verify_keys "*" < 0) (flags : Flags)
    (channeldir : String) (o : op) (filter : Option enclosure_filter)
    (identifiers : List String) :
    main_channels env flags channeldir o filter identifiers = (some (-1), []) := by
  simp [main_channels, h.1, h.2]

theorem main_channels_processed {env : ProcEnv}
    (h : ¬ (g_key_file_has_group env "*" = true ∧ env.verify_keys "*" < 0)) (flags : Flags)
    (channeldir : String) (o : op) (filter : Option enclosure_filter)
    (identifiers : List String) :
    main_channels env flags channeldir o filter identifiers
      = (none, (if identifiers.isEmpty = true then env.groups.filter (fun g => g != "*")
                else identifiers).map
          (fun id => (id, _process_channel env flags channeldir id o (main_defaults env)
            filter))) := by
  have hc : (g_key_file_has_group env "*" && decide (env.verify_keys "*" < 0)) = false := by
    cases hg : g_key_file_has_group env "*"
    · rfl
    · have : ¬ env.verify_keys "*" < 0 := fun hv => h ⟨hg, hv⟩
      simp [this]
  unfold main_channels
  simp only [hc, Bool.false_eq_true, if_false]
  cases identifiers.isEmpty <;> simp

/-- The identifier `*` on the command line: with a `*` section that sets URL and spool
directory, `main` calls `_process_channel` for `*`, which calls `channel_new` and
`channel_update` for it. -/
theorem star_on_command_line_runs_engine :
    ((main_channels
        ⟨["*", "a"], fun _ => 0,
          fun id _ => ⟨id, some "http://example.org/feed", some "/spool", none, none, none,
            none, none, none, none, none, none, none⟩,
          fun _ => -1, fun _ => true, fun p c => some ⟨p, c⟩⟩
        ⟨0, 0, 0⟩ "/home/u/.castget" .OP_UPDATE none ["*"]).2.map
          (fun e => (e.1, e.2.1, (engine_calls e.2.2).length))) = [("*", 0, 2)] := by
  decide

/-- C12, as the code has it: with a `*` section that has an unknown key and a channel
section `a`, and no identifier given, `main` returns -1 at line 191 and calls
`_process_channel` for no section at all. -/
theorem bad_defaults_process_nothing :
    main_channels
        ⟨["*", "a"], fun id => if id = "*" then -1 else 0,
          fun id _ => ⟨id, some "http://example.org/feed", some "/spool", none, none, none,
            none, none, none, none, none, none, none⟩,
          fun _ => -1, fun _ => true, fun p c => some ⟨p, c⟩⟩
        ⟨0, 0, 0⟩ "/home/u/.castget" .OP_UPDATE none []
      = (some (-1), []) := by
  decide

/-- C12, amended. When the `*` section, if there is one, passes the key check: with no
identifier given, `main` calls `_process_channel` for the configured sections other than
`*`, in configuration-file order, each exactly once, and never for `*`; with identifiers
given, none of them `*`, it calls `_process_channel` for just these, so never for `*`.
When the `*` section fails the key check, `main` returns -1 and calls `_process_channel`
for no section. -/
theorem star_not_processed (env : ProcEnv) (flags : Flags) (channeldir : String) (o : op)
    (filter : Option enclosure_filter) :
    (¬ (g_key_file_has_group env "*" = true ∧ env.verify_keys "*" < 0) →
      main_channels env flags channeldir o filter []
        = (none, (env.groups.filter (fun g => g != "*")).map
            (fun id => (id, _process_channel env flags channeldir id o (main_defaults env)
              filter))) ∧
      (main_channels env flags channeldir o filter []).2.map Prod.fst
        = env.groups.filter (fun g => g != "*") ∧
      (∀ e ∈ (main_channels env flags channeldir o filter []).2, e.1 ≠ "*") ∧
      (env.groups.Nodup → ∀ g ∈ env.groups, g ≠ "*" →
        ((main_channels env flags channeldir o filter []).2.map Prod.fst).count g = 1)) ∧
    (¬ (g_key_file_has_group env "*" = true ∧ env.verify_keys "*" < 0) →
      ∀ identifiers : List String, identifiers ≠ [] → "*" ∉ identifiers →
        (main_channels env flags channeldir o filter identifiers).2.map Prod.fst
          = identifiers ∧
        ∀ e ∈ (main_channels env flags channeldir o filter identifiers).2, e.1 ≠ "*") ∧
    ((g_key_file_has_group env "*" = true ∧ env.verify_keys "*" < 0) →
      ∀ identifiers : List String,
        main_channels env flags channeldir o filter identifiers = (some (-1), [])) := by
  have hmap : ∀ l : List String,
      (l.map (fun id => (id, _process_channel env flags channeldir id o (main_defaults env)
        filter))).map Prod.fst = l := by
    intro l
    rw [List.map_map]
    exact List.map_id l
  refine ⟨?_, ?_, fun h ids => main_channels_default_failure h flags channeldir o filter ids⟩
  · intro h
    have hm := main_channels_processed h flags channeldir o filter []
    simp only [List.isEmpty_nil, if_true] at hm
    have hfst : (main_channels env flags channeldir o filter []).2.map Prod.fst
        = env.groups.filter (fun g => g != "*") := by
      rw [hm]
      exact hmap _
    refine ⟨hm, hfst, ?_, ?_⟩
    · intro e he
      have : e.1 ∈ (main_channels env flags channeldir o filter []).2.map Prod.fst :=
        List.mem_map_of_mem Prod.fst he
      rw [hfst, List.mem_filter] at this
      simpa using this.2
    · intro hnd g hg hne
      rw [hfst]
      apply List.count_eq_one_of_mem (hnd.filter _)
      rw [List.mem_filter]
      exact ⟨hg, by simpa using hne⟩
  · intro h ids hne hstar
    have hm := main_channels_processed h flags channeldir o filter ids
    have hie : ids.isEmpty = false := by
      cases ids with
      | nil => exact absurd rfl hne
      | cons a t => rfl
    simp only [hie, Bool.false_eq_true, if_false] at hm
    have hfst : (main_channels env flags channeldir o filter ids).2.map Prod.fst = ids := by
      rw [hm]
      exact hmap _
    refine ⟨hfst, ?_⟩
    intro e he hc
    have : e.1 ∈ (main_channels env flags channeldir o filter ids).2.map Prod.fst :=
      List.mem_map_of_mem Prod.fst he
    rw [hfst, hc] at this
    exact hstar this

/-- C12 amended, at the sections `a`, `*`, `b` with no identifier given: `_process_channel`
is called for `a` and then for `b`. -/
theorem star_not_processed_witness :
    (main_channels
        ⟨["a", "*", "b"], fun _ => 0,
          fun id _ => ⟨id, some "http://example.org/feed", some "/spool", none, none, none,
            none, none, none, none, none, none, none⟩,
          fun _ => -1, fun _ => true, fun p c => some ⟨p, c⟩⟩
        ⟨0, 0, 0⟩ "/home/u/.castget" .OP_UPDATE none []).2.map Prod.fst = ["a", "b"] :=
  ((star_not_processed
    ⟨["a", "*", "b"], fun _ => 0,
      fun id _ => ⟨id, some "http://example.org/feed", some "/spool", none, none, none,
        none, none, none, none, none, none, none⟩,
      fun _ => -1, fun _ => true, fun p c => some ⟨p, c⟩⟩
    ⟨0, 0, 0⟩ "/home/u/.castget" .OP_UPDATE none).1 (by decide)).2.1

theorem update_call_args (flags : Flags) (o : op) (c : channel)
    (cfg : channel_configuration) (filter : Option enclosure_filter) (l : List Event) :
    update_args (update_call flags o c cfg filter :: l)
        = (match o with
           | .OP_UPDATE => (.update_callback, 0, 0, flags.resume)
           | .OP_CATCHUP => (.catchup_callback, 1, 0, 0)
           | .OP_LIST => (.list_callback, 1, 1, 0)) :: update_args l ∧
      channel_new_resume (update_call flags o c cfg filter :: l) = channel_new_resume l := by
  cases o <;> exact ⟨rfl, rfl⟩

/-- C13, as the code has it: in Catchup and in List mode, with the user's resume flag set,
`channel_update` receives `resume = 0` but `channel_new`, called at lines 452-454 before
the mode is looked at, receives `resume = 1`. -/
theorem channel_new_gets_resume_in_catchup_and_list :
    channel_new_resume (_process_channel
        ⟨["a"], fun _ => 0,
          fun id _ => ⟨id, some "http://example.org/feed", some "/spool", none, none, none,
            none, none, none, none, none, none, none⟩,
          fun _ => -1, fun _ => true, fun p c => some ⟨p, c⟩⟩
        ⟨0, 0, 1⟩ "/home/u/.castget" "a" .OP_CATCHUP none none).2 = [1] ∧
    update_args (_process_channel
        ⟨["a"], fun _ => 0,
          fun id _ => ⟨id, some "http://example.org/feed", some "/spool", none, none, none,
            none, none, none, none, none, none, none⟩,
          fun _ => -1, fun _ => true, fun p c => some ⟨p, c⟩⟩
        ⟨0, 0, 1⟩ "/home/u/.castget" "a" .OP_CATCHUP none none).2
      = [(.catchup_callback, 1, 0, 0)] ∧
    channel_new_resume (_process_channel
        ⟨["a"], fun _ => 0,
          fun id _ => ⟨id, some "http://example.org/feed", some "/spool", none, none, none,
            none, none, none, none, none, none, none⟩,
          fun _ => -1, fun _ => true, fun p c => some ⟨p, c⟩⟩
        ⟨0, 0, 1⟩ "/home/u/.castget" "a" .OP_LIST none none).2 = [1] ∧
    update_args (_process_channel
        ⟨["a"], fun _ => 0,
          fun id _ => ⟨id, some "http://example.org/feed", some "/spool", none, none, none,
            none, none, none, none, none, none, none⟩,
          fun _ => -1, fun _ => true, fun p c => some ⟨p, c⟩⟩
        ⟨0, 0, 1⟩ "/home/u/.castget" "a" .OP_LIST none none).2
      = [(.list_callback, 1, 1, 0)] := by
  decide

/-- C13, amended. Whenever `_process_channel` gets to call `channel_update`, it calls it
once, and the call asks: in Update mode to download and to record (`no_download = 0`,
`no_mark_read = 0`) with the user's resume flag; in Catchup mode to record without
downloading (`1`, `0`) with `resume = 0`; in List mode neither (`1`, `1`) with
`resume = 0`. The user's resume flag reaches `channel_update` in Update mode only;
`channel_new` receives it in every mode. -/
theorem mode_semantics (env : ProcEnv) (flags : Flags)
    (channel_directory identifier : String) (o : op)
    (defaults : Option channel_configuration) (filter : Option enclosure_filter) :
    update_args (_process_channel env flags channel_directory identifier o defaults
        filter).2
      = (if reaches_update env flags channel_directory identifier defaults = true
         then [match o with
               | .OP_UPDATE => (.update_callback, 0, 0, flags.resume)
               | .OP_CATCHUP => (.catchup_callback, 1, 0, 0)
               | .OP_LIST => (.list_callback, 1, 1, 0)]
         else []) ∧
    channel_new_resume (_process_channel env flags channel_directory identifier o defaults
        filter).2
      = (if reaches_channel_new env flags channel_directory identifier defaults = true
         then [flags.resume] else []) := by
  unfold _process_channel reaches_update reaches_channel_new
  by_cases hg : g_key_file_has_group env identifier = true
  swap
  · simp [hg, update_args, channel_new_resume]
  by_cases hv : env.verify_keys identifier < 0
  · simp [hg, hv, update_args, channel_new_resume]
  simp only [hg, hv, Bool.not_true, Bool.false_eq_true, if_false, Bool.true_and,
    decide_False, Bool.not_false]
  cases hu : (env.configuration_new identifier defaults).url with
  | none => simp [update_args, channel_new_resume]
  | some url =>
    cases hs : (env.configuration_new identifier defaults).spool_directory with
    | none => simp [update_args, channel_new_resume]
    | some spool =>
      simp only [Option.isSome_some, Bool.true_and]
      by_cases hn : flags.new ≠ 0 ∧
          env.access (channel_file_name channel_directory identifier) = 0
      · simp [hn, update_args, channel_new_resume]
      · simp only [hn, if_false, decide_False, Bool.not_false, Bool.true_and, if_true]
        cases hc : env.channel_new_ok ⟨url, channel_file_name channel_directory identifier,
            spool, (env.configuration_new identifier defaults).user_filename_spec,
            flags.resume⟩ with
        | false => simp [update_args, channel_new_resume]
        | true =>
          simp only [Bool.not_true, Bool.false_eq_true, if_false, if_true]
          cases filter with
          | some f =>
            cases hr : (env.configuration_new identifier defaults).regex_filter <;>
              simp [update_args, channel_new_resume, update_call_args]
          | none =>
            cases hr : (env.configuration_new identifier defaults).regex_filter with
            | none => simp [update_args, channel_new_resume, update_call_args]
            | some re =>
              cases hf : env.enclosure_filter_new re false <;>
                simp [hf, update_args, channel_new_resume, update_call_args]

/-- C13 amended, at Update mode with the user's resume flag set: `channel_update` is asked
to download and to record, with `resume = 1`. -/
theorem mode_semantics_witness :
    update_args (_process_channel
        ⟨["a"], fun _ => 0,
          fun id _ => ⟨id, some "http://example.org/feed", some "/spool", none, none, none,
            none, none, none, none, none, none, none⟩,
          fun _ => -1, fun _ => true, fun p c => some ⟨p, c⟩⟩
        ⟨0, 0, 1⟩ "/home/u/.castget" "a" .OP_UPDATE none none).2
      = [(.update_callback, 0, 0, 1)] :=
  (mode_semantics
    ⟨["a"], fun _ => 0,
      fun id _ => ⟨id, some "http://example.org/feed", some "/spool", none, none, none,
        none, none, none, none, none, none, none⟩,
      fun _ => -1, fun _ => true, fun p c => some ⟨p, c⟩⟩
    ⟨0, 0, 1⟩ "/home/u/.castget" "a" .OP_UPDATE none none).1.trans (by decide)

end Castget
